import Mathlib

/-!
Shallow embedding of the style-compilation module of the vuelayers
repository (src/unnamed/part_000): the `VlStyle` flat configuration
record, the sub-style compilers (`createFillStyle`, `createStrokeStyle`,
`createImageStyle`, `createTextStyle`, `createGeomStyle`), the aggregate
`createStyle`, and the identity accessors (`getStyleId`, `setStyleId`,
`initializeStyle`).

JavaScript objects are modelled as insertion-ordered association lists of
`String` keys to `Value`s; a key stored with the value `undefined` is a
present own key (as in JavaScript, where `Object.keys({a: undefined})` has
length 1).  Mutation-free JavaScript functions become pure Lean functions;
the two functions whose bodies mutate (`setStyleId`, hence
`initializeStyle`) return the post-state of the mutated object explicitly.
-/

set_option autoImplicit false

namespace VlStyle

/-- A JavaScript runtime value, restricted to the universe the style module
manipulates.  The constructors `fillS`, `strokeS`, `iconS`, `regShapeS`,
`circleS`, `textS` and `styleS` model instances of the OpenLayers classes
`Fill`, `Stroke`, `Icon`, `RegularShape`, `Circle`, `Text` and `Style`,
each carrying the options record it was constructed from.  `fn` is an
opaque function value identified by a tag. -/
inductive Value : Type where
  | undefined : Value
  | null : Value
  | bool : Bool → Value
  | num : Int → Value
  | str : String → Value
  | arr : List Value → Value
  | obj : List (String × Value) → Value
  | fillS : List (String × Value) → Value
  | strokeS : List (String × Value) → Value
  | iconS : List (String × Value) → Value
  | regShapeS : List (String × Value) → Value
  | circleS : List (String × Value) → Value
  | textS : List (String × Value) → Value
  | styleS : List (String × Value) → Value
  | fn : Nat → Value

/-- A JavaScript object: insertion-ordered own enumerable properties. -/
abbrev Obj : Type := List (String × Value)

/-- Property read `o[k]`: the first entry with key `k`, `undefined` when the
key is absent. -/
def getProp : Obj → String → Value
  | [], _ => .undefined
  | p :: ps, k => if p.1 == k then p.2 else getProp ps k

/-- `hasProp(o, k)` from util/minilo (not under src/).  Modelled from the
spec: an own-property check, `Object.prototype.hasOwnProperty`. -/
def hasProp : Obj → String → Bool
  | [], _ => false
  | p :: ps, k => p.1 == k || hasProp ps k

/-- Property write `o[k] = v`: overwrites the entry in place when the key
is present, appends a new entry otherwise (JavaScript key-order
semantics). -/
def setProp : Obj → String → Value → Obj
  | [], k, v => [(k, v)]
  | p :: ps, k, v => if p.1 == k then (k, v) :: ps else p :: setProp ps k v

/-- Sequential property writes: models an object literal that spreads a
base object and then lists explicit properties, and `Object.assign`. -/
def assignPairs (base : Obj) (ps : List (String × Value)) : Obj :=
  ps.foldl (fun acc p => setProp acc p.1 p.2) base

/-- Well-formedness of an object: JavaScript objects cannot carry the same
own key twice. -/
def NodupKeys (o : Obj) : Prop :=
  (o.map Prod.fst).Nodup

instance (o : Obj) : Decidable (NodupKeys o) := by
  unfold NodupKeys; infer_instance

/-- `upperFirst` from util/minilo (not under src/).  Modelled from the
spec: capitalizes the first character of a string. -/
def upperFirst (s : String) : String :=
  match s.data with
  | [] => s
  | c :: cs => String.mk (c.toUpper :: cs)

/-- `lowerFirst` from util/minilo (not under src/).  Modelled from the
spec: lowercases the first character of a string. -/
def lowerFirst (s : String) : String :=
  match s.data with
  | [] => s
  | c :: cs => String.mk (c.toLower :: cs)

/-- Does `pat` occur at the head of `s`? -/
def headMatch : List Char → List Char → Bool
  | [], _ => true
  | _ :: _, [] => false
  | p :: ps, c :: cs => p == c && headMatch ps cs

/-- Remove the first (leftmost) occurrence of `pat` from a character list;
the list is unchanged when `pat` does not occur. -/
def removeFirstL (pat : List Char) : List Char → List Char
  | [] => []
  | c :: cs =>
    if headMatch pat (c :: cs) then (c :: cs).drop pat.length
    else c :: removeFirstL pat cs

/-- `s.replace(new RegExp(pat), '')` for a pattern with no special regex
characters: remove the first occurrence of the literal substring `pat`. -/
def removeFirst (s pat : String) : String :=
  String.mk (removeFirstL pat.data s.data)

/-- JavaScript truthiness on the modelled value universe (`NaN` is not
representable; every `num` is a finite integer). -/
def truthy : Value → Bool
  | .undefined => false
  | .null => false
  | .bool b => b
  | .num n => n != 0
  | .str s => s.length != 0
  | _ => true

/-- JavaScript `x || y`: `x` when truthy, `y` otherwise. -/
def orJS (x y : Value) : Value :=
  if truthy x then x else y

/-- JavaScript loose `x == null`: true exactly on `null` and `undefined`. -/
def eqNullJS : Value → Bool
  | .undefined => true
  | .null => true
  | _ => false

/-- Coerce a compiler's optional result back to a JavaScript value:
`none` stands for the `undefined` a bodiless `return` produces. -/
def fromOpt : Option Value → Value
  | some v => v
  | none => .undefined

/-- `isFunction` from util/minilo (not under src/).  Modelled from the
spec: recognizes function values. -/
def isFunction : Value → Bool
  | .fn _ => true
  | _ => false

/-- Is `s` a decimal numeric literal (optional sign, digits, optional
fractional part)? -/
def strIsNumeric (s : String) : Bool :=
  let ds := match s.data with
    | '-' :: rest => rest
    | '+' :: rest => rest
    | rest => rest
  match ds.span Char.isDigit with
  | (is, []) => is.length != 0
  | (is, '.' :: fs) => is.length != 0 && fs.length != 0 && fs.all Char.isDigit
  | _ => false

/-- `isNumeric` from util/minilo (not under src/).  Modelled from the
spec: true on numbers and on strings that parse as finite numbers. -/
def isNumeric : Value → Bool
  | .num _ => true
  | .str s => strIsNumeric s
  | _ => false

/-- `reduce` from util/minilo (not under src/).  Modelled from the spec:
folds `iteratee(acc, value, key)` over the own enumerable entries of a
record in insertion order. -/
def reduce {α : Type} (collection : Obj) (iteratee : α → Value → String → α) (initial : α) : α :=
  collection.foldl (fun acc p => iteratee acc p.2 p.1) initial

/-- `pick` from util/minilo (not under src/).  Modelled from the spec:
the sub-record of `object` at the listed keys (keys absent from `object`
are skipped). -/
def pick (object : Obj) (keys : List String) : Obj :=
  keys.foldl (fun acc k => if hasProp object k then setProp acc k (getProp object k) else acc) []

/-- `isEmpty` from part_000 lines 96-101:
`x == null`, or a number is never empty, or a string/array is empty when
its length is 0, or otherwise `Object.keys(x).length == 0`.
Booleans and functions have no own enumerable keys, hence are empty.
OpenLayers style instances (`Fill`, `Stroke`, `Icon`, `RegularShape`,
`Circle`, `Text`, `Style`) always own at least one enumerable property set
in their constructor, so `Object.keys` on them is never empty. -/
def isEmpty : Value → Bool
  | .undefined => true
  | .null => true
  | .num _ => false
  | .str s => s.length == 0
  | .arr xs => xs.length == 0
  | .bool _ => true
  | .fn _ => true
  | .obj fs => fs.length == 0
  | .fillS _ => false
  | .strokeS _ => false
  | .iconS _ => false
  | .regShapeS _ => false
  | .circleS _ => false
  | .textS _ => false
  | .styleS _ => false

/-- Hex digit value. -/
def hexVal (c : Char) : Int :=
  if '0' ≤ c && c ≤ '9' then (c.toNat : Int) - ('0'.toNat : Int)
  else if 'a' ≤ c && c ≤ 'f' then (c.toNat : Int) - ('a'.toNat : Int) + 10
  else if 'A' ≤ c && c ≤ 'F' then (c.toNat : Int) - ('A'.toNat : Int) + 10
  else 0

/-- `parseColor(s).rgba` from the external parse-color library (not part of
this repository).  Modelled from the spec as a black box that returns an
`[r, g, b, a]` array for a recognized color string and `undefined`
otherwise; only six-digit hex colors are modelled, which is enough because
every claim treats the parser's output as opaque. -/
def parseColorRgba (s : String) : Value :=
  match s.data with
  | '#' :: [a, b, c, d, e, f] =>
    if [a, b, c, d, e, f].all (fun ch => ch.isDigit || ('a' ≤ ch && ch ≤ 'f') || ('A' ≤ ch && ch ≤ 'F')) then
      .arr [.num (16 * hexVal a + hexVal b), .num (16 * hexVal c + hexVal d),
            .num (16 * hexVal e + hexVal f), .num 1]
    else .undefined
  | _ => .undefined

/-- part_000 lines 131-139: strings are sent through
`parseColor(color).rgba`, every other value is returned unchanged. -/
def normalizeColor (color : Value) : Value :=
  match color with
  | .str s => parseColorRgba s
  | c => c

/-- part_000 line 125: `prefix + (prefix ? upperFirst(str) : str)`.
A non-empty prefix string is truthy. -/
def addPrefix (pfx : String) (s : String) : String :=
  pfx ++ (if pfx.length == 0 then s else upperFirst s)

/-- part_000 lines 7-13: return `style.id` when the `id` own property
exists, throw `Error('Illegal style argument')` otherwise. -/
def getStyleId (style : Obj) : Except String Value :=
  if hasProp style "id" then .ok (getProp style "id")
  else .error "Illegal style argument"

/-- part_000 lines 15-23: when the `id` own property exists, assign
`style.id = styleId` and return the style; throw otherwise.  The first
component is the returned value (or the thrown error), the second the
state of the style object after the call. -/
def setStyleId (style : Obj) (styleId : Value) : Except String Obj × Obj :=
  if hasProp style "id" then
    ((.ok (setProp style "id" styleId)), setProp style "id" styleId)
  else ((.error "Illegal style argument"), style)

/-- part_000 lines 25-31: `if (getStyleId(style) == null)
setStyleId(style, defaultStyleId || uuid()); return style`.  The external
`uuid()` generator (uuid/v4, not part of this repository) is modelled from
the spec as a supplied freshly generated string `genId`.  The result is
the style object as returned (after the in-place mutation, if any). -/
def initializeStyle (style : Obj) (defaultStyleId : Value) (genId : String) : Except String Obj :=
  match getStyleId style with
  | .error e => .error e
  | .ok idv =>
    if eqNullJS idv then
      match setStyleId style (orJS defaultStyleId (.str genId)) with
      | (.error e, _) => .error e
      | (.ok _, post) => .ok post
    else .ok style

/-- Is the value an instance of the OpenLayers `Fill` class? -/
def isFillInst : Value → Bool
  | .fillS _ => true
  | _ => false

/-- Is the value an instance of the OpenLayers `Stroke` class? -/
def isStrokeInst : Value → Bool
  | .strokeS _ => true
  | _ => false

/-- Is the value an instance of the abstract OpenLayers `ImageStyle` class
(`Icon`, `RegularShape` and `Circle` are its subclasses)? -/
def isImageInst : Value → Bool
  | .iconS _ => true
  | .regShapeS _ => true
  | .circleS _ => true
  | _ => false

/-- Is the value an instance of the OpenLayers `Text` class? -/
def isTextInst : Value → Bool
  | .textS _ => true
  | _ => false

/-- The iteratee of the `reduce` in part_000 lines 154-164: skip keys
outside `[prefixKey('fillColor')]`, strip the `prefixKey('fill')` part and
lowercase the head of what remains, normalize the value when the renamed
key is `color`, and store the pair. -/
def fillStep (pfx : String) (style : Obj) (value : Value) (name : String) : Obj :=
  if (["fillColor"].map (addPrefix pfx)).contains name = false then style
  else
    let name' := lowerFirst (removeFirst name (addPrefix pfx "fill"))
    let value' := if name' == "color" then normalizeColor value else value
    setProp style name' value'

/-- The options record accumulated by `createFillStyle`'s `reduce`. -/
def fillOptions (vlStyle : Obj) (pfx : String) : Obj :=
  reduce vlStyle (fillStep pfx) []

/-- part_000 lines 146-169: return the already-compiled
`vlStyle[prefixKey('fill')]` when it is a `Fill` instance, otherwise build
the options by the `reduce` and construct a `Fill` unless the options are
empty, in which case return `undefined`. -/
def createFillStyle (vlStyle : Obj) (pfx : String) : Option Value :=
  let compiledKey := addPrefix pfx "fill"
  if isFillInst (getProp vlStyle compiledKey) then some (getProp vlStyle compiledKey)
  else
    let fillStyle := fillOptions vlStyle pfx
    if !isEmpty (.obj fillStyle) then some (.fillS fillStyle) else none

/-- The seven flat stroke keys of part_000 lines 178-186, prefixed. -/
def strokeKeys (pfx : String) : List String :=
  ["strokeColor", "strokeWidth", "strokeMiterLimit", "strokeCap",
   "strokeJoin", "strokeDash", "strokeDashOffset"].map (addPrefix pfx)

/-- The iteratee of the `reduce` in part_000 lines 191-213: skip keys
outside the seven prefixed stroke keys; rename `strokeColor`,
`strokeWidth`, `strokeMiterLimit` by stripping `prefixKey('stroke')` and
lowercasing the head, and `strokeCap`, `strokeJoin`, `strokeDash`,
`strokeDashOffset` by replacing the stripped part with `line`; normalize
the value when the renamed key is `color`; store the pair. -/
def strokeStep (pfx : String) (style : Obj) (value : Value) (name : String) : Obj :=
  if (strokeKeys pfx).contains name = false then style
  else
    let name' :=
      if name == addPrefix pfx "strokeColor" || name == addPrefix pfx "strokeWidth"
          || name == addPrefix pfx "strokeMiterLimit" then
        lowerFirst (removeFirst name (addPrefix pfx "stroke"))
      else if name == addPrefix pfx "strokeCap" || name == addPrefix pfx "strokeJoin"
          || name == addPrefix pfx "strokeDash" || name == addPrefix pfx "strokeDashOffset" then
        "line" ++ removeFirst name (addPrefix pfx "stroke")
      else name
    let value' := if name' == "color" then normalizeColor value else value
    setProp style name' value'

/-- The options record accumulated by `createStrokeStyle`'s `reduce`. -/
def strokeOptions (vlStyle : Obj) (pfx : String) : Obj :=
  reduce vlStyle (strokeStep pfx) []

/-- part_000 lines 176-218: return the already-compiled
`vlStyle[prefixKey('stroke')]` when it is a `Stroke` instance, otherwise
build the options by the `reduce` and construct a `Stroke` unless the
options are empty, in which case return `undefined`. -/
def createStrokeStyle (vlStyle : Obj) (pfx : String) : Option Value :=
  let compiledKey := addPrefix pfx "stroke"
  if isStrokeInst (getProp vlStyle compiledKey) then some (getProp vlStyle compiledKey)
  else
    let strokeStyle := strokeOptions vlStyle pfx
    if !isEmpty (.obj strokeStyle) then some (.strokeS strokeStyle) else none

/-- String coercion of a non-array value (`String(x)` in JavaScript). -/
def jsToStringAtom : Value → String
  | .num n => toString n
  | .str s => s
  | .undefined => "undefined"
  | .null => "null"
  | .bool b => cond b "true" "false"
  | _ => "[object Object]"

/-- JavaScript `String(x)`.  Arrays join their elements with `,`; elements
that are themselves arrays are not needed by the embedded code and are
coerced shallowly. -/
def jsToString : Value → String
  | .arr xs => String.intercalate "," (xs.map jsToStringAtom)
  | v => jsToStringAtom v

/-- Which OpenLayers image constructor part_000 lines 239-280 selects. -/
inductive ImageCtor : Type where
  | icon : ImageCtor
  | regularShape : ImageCtor
  | circle : ImageCtor

/-- Apply the selected image constructor to its options. -/
def mkImage : ImageCtor → Obj → Value
  | .icon, o => .iconS o
  | .regularShape, o => .regShapeS o
  | .circle, o => .circleS o

/-- part_000 lines 237-280: select the constructor and build the branch
options.  Each branch spreads `vlStyle` and then writes its explicit
properties in source order. -/
def imageStyleBase (vlStyle : Obj) : ImageCtor × Obj :=
  if !isEmpty (getProp vlStyle "imageSrc") || !isEmpty (getProp vlStyle "image") then
    (.icon, assignPairs vlStyle [
      ("anchor", getProp vlStyle "imageAnchor"),
      ("anchorOrigin", getProp vlStyle "imageAnchorOrigin"),
      ("color", getProp vlStyle "imageColor"),
      ("offset", getProp vlStyle "imageOffset"),
      ("offsetOrigin", getProp vlStyle "imageOffsetOrigin"),
      ("opacity", getProp vlStyle "imageOpacity"),
      ("scale", getProp vlStyle "imageScale"),
      ("rotation", getProp vlStyle "imageRotation"),
      ("size", getProp vlStyle "imageSize"),
      ("img", getProp vlStyle "image"),
      ("imgSize", getProp vlStyle "imageImgSize"),
      ("src", getProp vlStyle "imageSrc"),
      ("crossOrigin", getProp vlStyle "imageCrossOrigin")])
  else if !eqNullJS (getProp vlStyle "imagePoints") then
    (.regularShape, assignPairs vlStyle [
      ("points", getProp vlStyle "imagePoints"),
      ("radius", getProp vlStyle "imageRadius"),
      ("radius1", getProp vlStyle "imageRadius1"),
      ("radius2", getProp vlStyle "imageRadius2"),
      ("angle", getProp vlStyle "imageAngle"),
      ("rotation", getProp vlStyle "imageRotation")])
  else
    (.circle, assignPairs vlStyle [
      ("radius", getProp vlStyle "imageRadius")])

/-- part_000 lines 282-287: spread the branch options and add the compiled
fill and stroke (image-prefixed, falling back to unprefixed) and
`snapToPixel: true`. -/
def imageOptions (vlStyle : Obj) : ImageCtor × Obj :=
  let base := imageStyleBase vlStyle
  (base.1, assignPairs base.2 [
    ("fill", orJS (fromOpt (createFillStyle vlStyle "image")) (fromOpt (createFillStyle vlStyle ""))),
    ("stroke", orJS (fromOpt (createStrokeStyle vlStyle "image")) (fromOpt (createStrokeStyle vlStyle ""))),
    ("snapToPixel", .bool true)])

/-- part_000 lines 225-292: return `undefined` when `imageSrc`, `image`
and `imagePoints` are all empty and `imageRadius` is not numeric; return
`vlStyle.image` when it is already an `ImageStyle` instance; otherwise
construct the selected image style from the merged options unless they
are empty. -/
def createImageStyle (vlStyle : Obj) : Option Value :=
  if isEmpty (getProp vlStyle "imageSrc") && isEmpty (getProp vlStyle "image")
      && isEmpty (getProp vlStyle "imagePoints") && !isNumeric (getProp vlStyle "imageRadius") then
    none
  else if isImageInst (getProp vlStyle "image") then some (getProp vlStyle "image")
  else
    let io := imageOptions vlStyle
    if !isEmpty (.obj io.2) then some (mkImage io.1 io.2) else none

/-- part_000 lines 303-329: the text options record.  Starts from
`{text: vlStyle.text}`, then `Object.assign` copies
`pick(vlStyle, ['textAlign', 'textBaseline'])` and the literal with the
font, the compiled fill/stroke (text-prefixed falling back to unprefixed),
the plain text fields, and the textBackground-prefixed background fill and
stroke (no fallback). -/
def textOptions (vlStyle : Obj) : Obj :=
  let base : Obj := [("text", getProp vlStyle "text")]
  let fontSize := if truthy (getProp vlStyle "textFontSize")
    then Value.str (jsToString (getProp vlStyle "textFontSize") ++ "px") else Value.undefined
  let font := String.intercalate " "
    (([Value.str "normal", fontSize, getProp vlStyle "textFont"].filter (fun x => truthy x)).map jsToString)
  assignPairs (assignPairs base (pick vlStyle ["textAlign", "textBaseline"]))
    [("font", .str font),
     ("fill", orJS (fromOpt (createFillStyle vlStyle "text")) (fromOpt (createFillStyle vlStyle ""))),
     ("stroke", orJS (fromOpt (createStrokeStyle vlStyle "text")) (fromOpt (createStrokeStyle vlStyle ""))),
     ("scale", getProp vlStyle "textScale"),
     ("rotation", getProp vlStyle "textRotation"),
     ("offsetX", getProp vlStyle "textOffsetX"),
     ("offsetY", getProp vlStyle "textOffsetY"),
     ("rotateWithView", getProp vlStyle "textRotateWithView"),
     ("padding", getProp vlStyle "textPadding"),
     ("maxAngle", getProp vlStyle "textMaxAngle"),
     ("overflow", getProp vlStyle "textOverflow"),
     ("placement", getProp vlStyle "textPlacement"),
     ("backgroundFill", fromOpt (createFillStyle vlStyle "textBackground")),
     ("backgroundStroke", fromOpt (createStrokeStyle vlStyle "textBackground"))]

/-- part_000 lines 298-334: return `undefined` when `vlStyle.text == null`,
return `vlStyle.text` when it is already a `Text` instance, otherwise
construct a `Text` from the options unless they are empty. -/
def createTextStyle (vlStyle : Obj) : Option Value :=
  if eqNullJS (getProp vlStyle "text") then none
  else if isTextInst (getProp vlStyle "text") then some (getProp vlStyle "text")
  else
    let textStyle := textOptions vlStyle
    if !isEmpty (.obj textStyle) then some (.textS textStyle) else none

/-- part_000 lines 340-348: when `vlStyle.geom` is a function the source
returns the delegating closure `__styleGeomFunc`, which is extensionally
`vlStyle.geom` itself (function identity is not modelled); otherwise it
returns `vlStyle.geom`. -/
def createGeomStyle (vlStyle : Obj) : Value :=
  if isFunction (getProp vlStyle "geom") then getProp vlStyle "geom"
  else getProp vlStyle "geom"

/-- part_000 lines 107-123: return `undefined` on an empty record,
otherwise build the seven-key `olStyle` literal and construct a `Style`
from it unless it is empty. -/
def createStyle (vlStyle : Obj) : Option Value :=
  if isEmpty (.obj vlStyle) then none
  else
    let olStyle : Obj := [
      ("text", fromOpt (createTextStyle vlStyle)),
      ("fill", fromOpt (createFillStyle vlStyle "")),
      ("stroke", fromOpt (createStrokeStyle vlStyle "")),
      ("image", fromOpt (createImageStyle vlStyle)),
      ("geometry", createGeomStyle vlStyle),
      ("zIndex", getProp vlStyle "zIndex"),
      ("renderer", getProp vlStyle "renderer")]
    if !isEmpty (.obj olStyle) then some (.styleS olStyle) else none

/-- State-passing view of `createFillStyle`: result together with the
state of the input record after the call.  The body of `createFillStyle`
(part_000 lines 146-169) contains no assignment to `vlStyle` — its
`reduce` accumulates into a fresh object literal — so the record after
the call is the record before it. -/
def createFillStyleM (vlStyle : Obj) (pfx : String) : Option Value × Obj :=
  (createFillStyle vlStyle pfx, vlStyle)

/-- State-passing view of `createStrokeStyle` (part_000 lines 176-218):
no statement in its body assigns to `vlStyle`. -/
def createStrokeStyleM (vlStyle : Obj) (pfx : String) : Option Value × Obj :=
  (createStrokeStyle vlStyle pfx, vlStyle)

/-- State-passing view of `createImageStyle` (part_000 lines 225-292):
no statement in its body assigns to `vlStyle` — both object literals
spread `vlStyle` into fresh objects. -/
def createImageStyleM (vlStyle : Obj) : Option Value × Obj :=
  (createImageStyle vlStyle, vlStyle)

/-- State-passing view of `createTextStyle` (part_000 lines 298-334):
no statement in its body assigns to `vlStyle` — `Object.assign` mutates
only the fresh local `textStyle`. -/
def createTextStyleM (vlStyle : Obj) : Option Value × Obj :=
  (createTextStyle vlStyle, vlStyle)

/-! ### String lemmas -/

theorem strExt {s t : String} (h : s.data = t.data) : s = t := by
  cases s; cases t; cases h; rfl

theorem strAppend_data (a b : String) : (a ++ b).data = a.data ++ b.data :=
  String.data_append a b

theorem strAppend_assoc (a b c : String) : a ++ b ++ c = a ++ (b ++ c) :=
  strExt (by simp [strAppend_data])

theorem strAppend_left_cancel {p a b : String} (h : p ++ a = p ++ b) : a = b := by
  have hd := congrArg String.data h
  rw [strAppend_data, strAppend_data] at hd
  exact strExt (List.append_cancel_left hd)

theorem beqComm {α : Type} [BEq α] [LawfulBEq α] (a b : α) : (a == b) = (b == a) := by
  by_cases h : a = b
  · subst h; rfl
  · rw [beq_eq_false_iff_ne.mpr h, beq_eq_false_iff_ne.mpr (Ne.symm h)]

theorem headMatch_append (xs ys : List Char) : headMatch xs (xs ++ ys) = true := by
  induction xs with
  | nil => rfl
  | cons c cs ih => simp [headMatch, ih]

theorem removeFirstL_append (p t : List Char) : removeFirstL p (p ++ t) = t := by
  cases p with
  | nil =>
    cases t with
    | nil => rfl
    | cons c cs => simp [removeFirstL, headMatch]
  | cons c cs =>
    show removeFirstL (c :: cs) (c :: (cs ++ t)) = t
    rw [removeFirstL]
    have hm : headMatch (c :: cs) (c :: (cs ++ t)) = true := headMatch_append (c :: cs) t
    rw [hm]
    simp [List.drop_left]

theorem removeFirst_append (p t : String) : removeFirst (p ++ t) p = t := by
  unfold removeFirst
  rw [strAppend_data, removeFirstL_append]

theorem addPrefix_split (pfx a b c : String) (h₁ : a = b ++ c)
    (h₂ : upperFirst a = upperFirst b ++ c) :
    addPrefix pfx a = addPrefix pfx b ++ c := by
  unfold addPrefix
  by_cases h : pfx.length = 0
  · simp only [h, beq_self_eq_true, if_true]
    rw [h₁, ← strAppend_assoc]
  · have hb : (pfx.length == 0) = false := by simpa using h
    simp only [hb, Bool.false_eq_true, if_false]
    rw [h₂, ← strAppend_assoc]

theorem removeFirst_addPrefix (pfx a b c : String) (h₁ : a = b ++ c)
    (h₂ : upperFirst a = upperFirst b ++ c) :
    removeFirst (addPrefix pfx a) (addPrefix pfx b) = c := by
  rw [addPrefix_split pfx a b c h₁ h₂]
  exact removeFirst_append _ _

theorem addPrefix_ne (pfx a b : String) (h₁ : a ≠ b)
    (h₂ : upperFirst a ≠ upperFirst b) :
    addPrefix pfx a ≠ addPrefix pfx b := by
  unfold addPrefix
  by_cases h : pfx.length = 0
  · simp only [h, beq_self_eq_true, if_true]
    intro hc
    exact h₁ (strAppend_left_cancel hc)
  · have hb : (pfx.length == 0) = false := by simpa using h
    simp only [hb, Bool.false_eq_true, if_false]
    intro hc
    exact h₂ (strAppend_left_cancel hc)

theorem pk_beq_false (pfx a b : String) (h₁ : a ≠ b)
    (h₂ : upperFirst a ≠ upperFirst b) :
    (addPrefix pfx a == addPrefix pfx b) = false :=
  beq_eq_false_iff_ne.mpr (addPrefix_ne pfx a b h₁ h₂)

/-! ### Object lemmas -/

theorem getProp_setProp (o : Obj) (k : String) (v : Value) (k' : String) :
    getProp (setProp o k v) k' = if k' == k then v else getProp o k' := by
  induction o with
  | nil =>
    by_cases h : k' = k
    · subst h; simp [setProp, getProp]
    · simp [setProp, getProp, beq_eq_false_iff_ne.mpr h, beq_eq_false_iff_ne.mpr (Ne.symm h)]
  | cons p ps ih =>
    by_cases h : p.1 = k
    · by_cases h' : k' = k
      · subst h'; simp [setProp, getProp, h]
      · simp [setProp, getProp, h, beq_eq_false_iff_ne.mpr h', beq_eq_false_iff_ne.mpr (Ne.symm h')]
    · by_cases h' : k' = k
      · subst h'
        simp [setProp, getProp, beq_eq_false_iff_ne.mpr h, ih]
      · simp [setProp, getProp, beq_eq_false_iff_ne.mpr h, beq_eq_false_iff_ne.mpr h', ih]

theorem hasProp_setProp (o : Obj) (k : String) (v : Value) (k' : String) :
    hasProp (setProp o k v) k' = (k' == k || hasProp o k') := by
  induction o with
  | nil =>
    by_cases h : k' = k
    · subst h; simp [setProp, hasProp]
    · simp [setProp, hasProp, beq_eq_false_iff_ne.mpr h, beq_eq_false_iff_ne.mpr (Ne.symm h)]
  | cons p ps ih =>
    by_cases h : p.1 = k
    · by_cases h' : k' = k
      · subst h'; simp [setProp, hasProp, h]
      · simp [setProp, hasProp, h, beq_eq_false_iff_ne.mpr h', beq_eq_false_iff_ne.mpr (Ne.symm h')]
    · by_cases h' : k' = k
      · subst h'
        simp [setProp, hasProp, beq_eq_false_iff_ne.mpr h, ih]
      · simp [setProp, hasProp, beq_eq_false_iff_ne.mpr h, beq_eq_false_iff_ne.mpr h', ih]

theorem hasProp_false_iff (o : Obj) (k : String) :
    hasProp o k = false ↔ ∀ p ∈ o, p.1 ≠ k := by
  induction o with
  | nil => simp [hasProp]
  | cons p ps ih => simp [hasProp, ih]

theorem getProp_eq_undef {o : Obj} {k : String} (h : hasProp o k = false) :
    getProp o k = .undefined := by
  induction o with
  | nil => rfl
  | cons p ps ih =>
    rw [hasProp] at h
    rcases Bool.or_eq_false_iff.mp h with ⟨h₁, h₂⟩
    rw [getProp, h₁]
    simp only [Bool.false_eq_true, if_false]
    exact ih h₂

theorem isEmpty_obj_false_of_hasProp {o : Obj} {k : String} (h : hasProp o k = true) :
    isEmpty (.obj o) = false := by
  cases o with
  | nil => simp [hasProp] at h
  | cons p ps => simp [isEmpty]

theorem assignPairs_cons (base : Obj) (q : String × Value) (ps : List (String × Value)) :
    assignPairs base (q :: ps) = assignPairs (setProp base q.1 q.2) ps := rfl

theorem assignPairs_nil (base : Obj) : assignPairs base [] = base := rfl

/-! ### Write tables: a uniform view of the fill/stroke `reduce` steps -/

/-- The transformation a sub-style compiler applies to a value before
storing it under destination key `dst`: color normalization for the
`color` field, identity otherwise. -/
def aliasXform (dst : String) (v : Value) : Value :=
  if dst == "color" then normalizeColor v else v

/-- The write table of `createFillStyle`'s reduce: the prefixed
`fillColor` key is stored under `color`. -/
def fillWrites (pfx : String) : List (String × String) :=
  [(addPrefix pfx "fillColor", "color")]

/-- The unprefixed stroke key aliasing of `createStrokeStyle`. -/
def strokeAliasPairs : List (String × String) :=
  [("strokeColor", "color"), ("strokeWidth", "width"), ("strokeMiterLimit", "miterLimit"),
   ("strokeCap", "lineCap"), ("strokeJoin", "lineJoin"), ("strokeDash", "lineDash"),
   ("strokeDashOffset", "lineDashOffset")]

/-- The write table of `createStrokeStyle`'s reduce. -/
def strokeWrites (pfx : String) : List (String × String) :=
  strokeAliasPairs.map (fun w => (addPrefix pfx w.1, w.2))

/-- A fold step that looks its key up in a write table and stores the
transformed value under the destination key, skipping unknown keys. -/
def writeStep (writes : List (String × String)) (acc : Obj) (val : Value) (k : String) : Obj :=
  match writes.find? (fun w => w.1 == k) with
  | some w => setProp acc w.2 (aliasXform w.2 val)
  | none => acc

theorem fillStep_eq_writeStep (pfx : String) (acc : Obj) (val : Value) (k : String) :
    fillStep pfx acc val k = writeStep (fillWrites pfx) acc val k := by
  by_cases h : k = addPrefix pfx "fillColor"
  · subst h
    have r1 : removeFirst (addPrefix pfx "fillColor") (addPrefix pfx "fill") = "Color" :=
      removeFirst_addPrefix pfx "fillColor" "fill" "Color" (by decide) (by decide)
    have lc : lowerFirst "Color" = "color" := rfl
    simp [fillStep, writeStep, fillWrites, List.find?, r1, lc, aliasXform]
  · simp [fillStep, writeStep, fillWrites, List.find?, h,
      beq_eq_false_iff_ne.mpr h, beq_eq_false_iff_ne.mpr (Ne.symm h)]

theorem strokeStep_eq_writeStep (pfx : String) (acc : Obj) (val : Value) (k : String) :
    strokeStep pfx acc val k = writeStep (strokeWrites pfx) acc val k := by
  by_cases h1 : k = addPrefix pfx "strokeColor"
  · subst h1
    have r : removeFirst (addPrefix pfx "strokeColor") (addPrefix pfx "stroke") = "Color" :=
      removeFirst_addPrefix pfx "strokeColor" "stroke" "Color" (by decide) (by decide)
    have n12 : (addPrefix pfx "strokeColor" == addPrefix pfx "strokeWidth") = false :=
      pk_beq_false pfx "strokeColor" "strokeWidth" (by decide) (by decide)
    have m12 : (addPrefix pfx "strokeWidth" == addPrefix pfx "strokeColor") = false :=
      pk_beq_false pfx "strokeWidth" "strokeColor" (by decide) (by decide)
    have n13 : (addPrefix pfx "strokeColor" == addPrefix pfx "strokeMiterLimit") = false :=
      pk_beq_false pfx "strokeColor" "strokeMiterLimit" (by decide) (by decide)
    have m13 : (addPrefix pfx "strokeMiterLimit" == addPrefix pfx "strokeColor") = false :=
      pk_beq_false pfx "strokeMiterLimit" "strokeColor" (by decide) (by decide)
    have n14 : (addPrefix pfx "strokeColor" == addPrefix pfx "strokeCap") = false :=
      pk_beq_false pfx "strokeColor" "strokeCap" (by decide) (by decide)
    have m14 : (addPrefix pfx "strokeCap" == addPrefix pfx "strokeColor") = false :=
      pk_beq_false pfx "strokeCap" "strokeColor" (by decide) (by decide)
    have n15 : (addPrefix pfx "strokeColor" == addPrefix pfx "strokeJoin") = false :=
      pk_beq_false pfx "strokeColor" "strokeJoin" (by decide) (by decide)
    have m15 : (addPrefix pfx "strokeJoin" == addPrefix pfx "strokeColor") = false :=
      pk_beq_false pfx "strokeJoin" "strokeColor" (by decide) (by decide)
    have n16 : (addPrefix pfx "strokeColor" == addPrefix pfx "strokeDash") = false :=
      pk_beq_false pfx "strokeColor" "strokeDash" (by decide) (by decide)
    have m16 : (addPrefix pfx "strokeDash" == addPrefix pfx "strokeColor") = false :=
      pk_beq_false pfx "strokeDash" "strokeColor" (by decide) (by decide)
    have n17 : (addPrefix pfx "strokeColor" == addPrefix pfx "strokeDashOffset") = false :=
      pk_beq_false pfx "strokeColor" "strokeDashOffset" (by decide) (by decide)
    have m17 : (addPrefix pfx "strokeDashOffset" == addPrefix pfx "strokeColor") = false :=
      pk_beq_false pfx "strokeDashOffset" "strokeColor" (by decide) (by decide)
    have lw : lowerFirst "Color" = "color" := rfl
    simp [strokeStep, strokeKeys, writeStep, strokeWrites, strokeAliasPairs,
      List.find?, List.contains, List.elem, aliasXform, r, n12, m12, n13, m13, n14, m14, n15, m15, n16, m16, n17, m17, lw]
  by_cases h2 : k = addPrefix pfx "strokeWidth"
  · subst h2
    have r : removeFirst (addPrefix pfx "strokeWidth") (addPrefix pfx "stroke") = "Width" :=
      removeFirst_addPrefix pfx "strokeWidth" "stroke" "Width" (by decide) (by decide)
    have n21 : (addPrefix pfx "strokeWidth" == addPrefix pfx "strokeColor") = false :=
      pk_beq_false pfx "strokeWidth" "strokeColor" (by decide) (by decide)
    have m21 : (addPrefix pfx "strokeColor" == addPrefix pfx "strokeWidth") = false :=
      pk_beq_false pfx "strokeColor" "strokeWidth" (by decide) (by decide)
    have n23 : (addPrefix pfx "strokeWidth" == addPrefix pfx "strokeMiterLimit") = false :=
      pk_beq_false pfx "strokeWidth" "strokeMiterLimit" (by decide) (by decide)
    have m23 : (addPrefix pfx "strokeMiterLimit" == addPrefix pfx "strokeWidth") = false :=
      pk_beq_false pfx "strokeMiterLimit" "strokeWidth" (by decide) (by decide)
    have n24 : (addPrefix pfx "strokeWidth" == addPrefix pfx "strokeCap") = false :=
      pk_beq_false pfx "strokeWidth" "strokeCap" (by decide) (by decide)
    have m24 : (addPrefix pfx "strokeCap" == addPrefix pfx "strokeWidth") = false :=
      pk_beq_false pfx "strokeCap" "strokeWidth" (by decide) (by decide)
    have n25 : (addPrefix pfx "strokeWidth" == addPrefix pfx "strokeJoin") = false :=
      pk_beq_false pfx "strokeWidth" "strokeJoin" (by decide) (by decide)
    have m25 : (addPrefix pfx "strokeJoin" == addPrefix pfx "strokeWidth") = false :=
      pk_beq_false pfx "strokeJoin" "strokeWidth" (by decide) (by decide)
    have n26 : (addPrefix pfx "strokeWidth" == addPrefix pfx "strokeDash") = false :=
      pk_beq_false pfx "strokeWidth" "strokeDash" (by decide) (by decide)
    have m26 : (addPrefix pfx "strokeDash" == addPrefix pfx "strokeWidth") = false :=
      pk_beq_false pfx "strokeDash" "strokeWidth" (by decide) (by decide)
    have n27 : (addPrefix pfx "strokeWidth" == addPrefix pfx "strokeDashOffset") = false :=
      pk_beq_false pfx "strokeWidth" "strokeDashOffset" (by decide) (by decide)
    have m27 : (addPrefix pfx "strokeDashOffset" == addPrefix pfx "strokeWidth") = false :=
      pk_beq_false pfx "strokeDashOffset" "strokeWidth" (by decide) (by decide)
    have lw : lowerFirst "Width" = "width" := rfl
    simp [strokeStep, strokeKeys, writeStep, strokeWrites, strokeAliasPairs,
      List.find?, List.contains, List.elem, aliasXform, r, n21, m21, n23, m23, n24, m24, n25, m25, n26, m26, n27, m27, lw]
  by_cases h3 : k = addPrefix pfx "strokeMiterLimit"
  · subst h3
    have r : removeFirst (addPrefix pfx "strokeMiterLimit") (addPrefix pfx "stroke") = "MiterLimit" :=
      removeFirst_addPrefix pfx "strokeMiterLimit" "stroke" "MiterLimit" (by decide) (by decide)
    have n31 : (addPrefix pfx "strokeMiterLimit" == addPrefix pfx "strokeColor") = false :=
      pk_beq_false pfx "strokeMiterLimit" "strokeColor" (by decide) (by decide)
    have m31 : (addPrefix pfx "strokeColor" == addPrefix pfx "strokeMiterLimit") = false :=
      pk_beq_false pfx "strokeColor" "strokeMiterLimit" (by decide) (by decide)
    have n32 : (addPrefix pfx "strokeMiterLimit" == addPrefix pfx "strokeWidth") = false :=
      pk_beq_false pfx "strokeMiterLimit" "strokeWidth" (by decide) (by decide)
    have m32 : (addPrefix pfx "strokeWidth" == addPrefix pfx "strokeMiterLimit") = false :=
      pk_beq_false pfx "strokeWidth" "strokeMiterLimit" (by decide) (by decide)
    have n34 : (addPrefix pfx "strokeMiterLimit" == addPrefix pfx "strokeCap") = false :=
      pk_beq_false pfx "strokeMiterLimit" "strokeCap" (by decide) (by decide)
    have m34 : (addPrefix pfx "strokeCap" == addPrefix pfx "strokeMiterLimit") = false :=
      pk_beq_false pfx "strokeCap" "strokeMiterLimit" (by decide) (by decide)
    have n35 : (addPrefix pfx "strokeMiterLimit" == addPrefix pfx "strokeJoin") = false :=
      pk_beq_false pfx "strokeMiterLimit" "strokeJoin" (by decide) (by decide)
    have m35 : (addPrefix pfx "strokeJoin" == addPrefix pfx "strokeMiterLimit") = false :=
      pk_beq_false pfx "strokeJoin" "strokeMiterLimit" (by decide) (by decide)
    have n36 : (addPrefix pfx "strokeMiterLimit" == addPrefix pfx "strokeDash") = false :=
      pk_beq_false pfx "strokeMiterLimit" "strokeDash" (by decide) (by decide)
    have m36 : (addPrefix pfx "strokeDash" == addPrefix pfx "strokeMiterLimit") = false :=
      pk_beq_false pfx "strokeDash" "strokeMiterLimit" (by decide) (by decide)
    have n37 : (addPrefix pfx "strokeMiterLimit" == addPrefix pfx "strokeDashOffset") = false :=
      pk_beq_false pfx "strokeMiterLimit" "strokeDashOffset" (by decide) (by decide)
    have m37 : (addPrefix pfx "strokeDashOffset" == addPrefix pfx "strokeMiterLimit") = false :=
      pk_beq_false pfx "strokeDashOffset" "strokeMiterLimit" (by decide) (by decide)
    have lw : lowerFirst "MiterLimit" = "miterLimit" := rfl
    simp [strokeStep, strokeKeys, writeStep, strokeWrites, strokeAliasPairs,
      List.find?, List.contains, List.elem, aliasXform, r, n31, m31, n32, m32, n34, m34, n35, m35, n36, m36, n37, m37, lw]
  by_cases h4 : k = addPrefix pfx "strokeCap"
  · subst h4
    have r : removeFirst (addPrefix pfx "strokeCap") (addPrefix pfx "stroke") = "Cap" :=
      removeFirst_addPrefix pfx "strokeCap" "stroke" "Cap" (by decide) (by decide)
    have n41 : (addPrefix pfx "strokeCap" == addPrefix pfx "strokeColor") = false :=
      pk_beq_false pfx "strokeCap" "strokeColor" (by decide) (by decide)
    have m41 : (addPrefix pfx "strokeColor" == addPrefix pfx "strokeCap") = false :=
      pk_beq_false pfx "strokeColor" "strokeCap" (by decide) (by decide)
    have n42 : (addPrefix pfx "strokeCap" == addPrefix pfx "strokeWidth") = false :=
      pk_beq_false pfx "strokeCap" "strokeWidth" (by decide) (by decide)
    have m42 : (addPrefix pfx "strokeWidth" == addPrefix pfx "strokeCap") = false :=
      pk_beq_false pfx "strokeWidth" "strokeCap" (by decide) (by decide)
    have n43 : (addPrefix pfx "strokeCap" == addPrefix pfx "strokeMiterLimit") = false :=
      pk_beq_false pfx "strokeCap" "strokeMiterLimit" (by decide) (by decide)
    have m43 : (addPrefix pfx "strokeMiterLimit" == addPrefix pfx "strokeCap") = false :=
      pk_beq_false pfx "strokeMiterLimit" "strokeCap" (by decide) (by decide)
    have n45 : (addPrefix pfx "strokeCap" == addPrefix pfx "strokeJoin") = false :=
      pk_beq_false pfx "strokeCap" "strokeJoin" (by decide) (by decide)
    have m45 : (addPrefix pfx "strokeJoin" == addPrefix pfx "strokeCap") = false :=
      pk_beq_false pfx "strokeJoin" "strokeCap" (by decide) (by decide)
    have n46 : (addPrefix pfx "strokeCap" == addPrefix pfx "strokeDash") = false :=
      pk_beq_false pfx "strokeCap" "strokeDash" (by decide) (by decide)
    have m46 : (addPrefix pfx "strokeDash" == addPrefix pfx "strokeCap") = false :=
      pk_beq_false pfx "strokeDash" "strokeCap" (by decide) (by decide)
    have n47 : (addPrefix pfx "strokeCap" == addPrefix pfx "strokeDashOffset") = false :=
      pk_beq_false pfx "strokeCap" "strokeDashOffset" (by decide) (by decide)
    have m47 : (addPrefix pfx "strokeDashOffset" == addPrefix pfx "strokeCap") = false :=
      pk_beq_false pfx "strokeDashOffset" "strokeCap" (by decide) (by decide)
    have ap : "line" ++ "Cap" = "lineCap" := rfl
    simp [strokeStep, strokeKeys, writeStep, strokeWrites, strokeAliasPairs,
      List.find?, List.contains, List.elem, aliasXform, r, n41, m41, n42, m42, n43, m43, n45, m45, n46, m46, n47, m47, ap]
  by_cases h5 : k = addPrefix pfx "strokeJoin"
  · subst h5
    have r : removeFirst (addPrefix pfx "strokeJoin") (addPrefix pfx "stroke") = "Join" :=
      removeFirst_addPrefix pfx "strokeJoin" "stroke" "Join" (by decide) (by decide)
    have n51 : (addPrefix pfx "strokeJoin" == addPrefix pfx "strokeColor") = false :=
      pk_beq_false pfx "strokeJoin" "strokeColor" (by decide) (by decide)
    have m51 : (addPrefix pfx "strokeColor" == addPrefix pfx "strokeJoin") = false :=
      pk_beq_false pfx "strokeColor" "strokeJoin" (by decide) (by decide)
    have n52 : (addPrefix pfx "strokeJoin" == addPrefix pfx "strokeWidth") = false :=
      pk_beq_false pfx "strokeJoin" "strokeWidth" (by decide) (by decide)
    have m52 : (addPrefix pfx "strokeWidth" == addPrefix pfx "strokeJoin") = false :=
      pk_beq_false pfx "strokeWidth" "strokeJoin" (by decide) (by decide)
    have n53 : (addPrefix pfx "strokeJoin" == addPrefix pfx "strokeMiterLimit") = false :=
      pk_beq_false pfx "strokeJoin" "strokeMiterLimit" (by decide) (by decide)
    have m53 : (addPrefix pfx "strokeMiterLimit" == addPrefix pfx "strokeJoin") = false :=
      pk_beq_false pfx "strokeMiterLimit" "strokeJoin" (by decide) (by decide)
    have n54 : (addPrefix pfx "strokeJoin" == addPrefix pfx "strokeCap") = false :=
      pk_beq_false pfx "strokeJoin" "strokeCap" (by decide) (by decide)
    have m54 : (addPrefix pfx "strokeCap" == addPrefix pfx "strokeJoin") = false :=
      pk_beq_false pfx "strokeCap" "strokeJoin" (by decide) (by decide)
    have n56 : (addPrefix pfx "strokeJoin" == addPrefix pfx "strokeDash") = false :=
      pk_beq_false pfx "strokeJoin" "strokeDash" (by decide) (by decide)
    have m56 : (addPrefix pfx "strokeDash" == addPrefix pfx "strokeJoin") = false :=
      pk_beq_false pfx "strokeDash" "strokeJoin" (by decide) (by decide)
    have n57 : (addPrefix pfx "strokeJoin" == addPrefix pfx "strokeDashOffset") = false :=
      pk_beq_false pfx "strokeJoin" "strokeDashOffset" (by decide) (by decide)
    have m57 : (addPrefix pfx "strokeDashOffset" == addPrefix pfx "strokeJoin") = false :=
      pk_beq_false pfx "strokeDashOffset" "strokeJoin" (by decide) (by decide)
    have ap : "line" ++ "Join" = "lineJoin" := rfl
    simp [strokeStep, strokeKeys, writeStep, strokeWrites, strokeAliasPairs,
      List.find?, List.contains, List.elem, aliasXform, r, n51, m51, n52, m52, n53, m53, n54, m54, n56, m56, n57, m57, ap]
  by_cases h6 : k = addPrefix pfx "strokeDash"
  · subst h6
    have r : removeFirst (addPrefix pfx "strokeDash") (addPrefix pfx "stroke") = "Dash" :=
      removeFirst_addPrefix pfx "strokeDash" "stroke" "Dash" (by decide) (by decide)
    have n61 : (addPrefix pfx "strokeDash" == addPrefix pfx "strokeColor") = false :=
      pk_beq_false pfx "strokeDash" "strokeColor" (by decide) (by decide)
    have m61 : (addPrefix pfx "strokeColor" == addPrefix pfx "strokeDash") = false :=
      pk_beq_false pfx "strokeColor" "strokeDash" (by decide) (by decide)
    have n62 : (addPrefix pfx "strokeDash" == addPrefix pfx "strokeWidth") = false :=
      pk_beq_false pfx "strokeDash" "strokeWidth" (by decide) (by decide)
    have m62 : (addPrefix pfx "strokeWidth" == addPrefix pfx "strokeDash") = false :=
      pk_beq_false pfx "strokeWidth" "strokeDash" (by decide) (by decide)
    have n63 : (addPrefix pfx "strokeDash" == addPrefix pfx "strokeMiterLimit") = false :=
      pk_beq_false pfx "strokeDash" "strokeMiterLimit" (by decide) (by decide)
    have m63 : (addPrefix pfx "strokeMiterLimit" == addPrefix pfx "strokeDash") = false :=
      pk_beq_false pfx "strokeMiterLimit" "strokeDash" (by decide) (by decide)
    have n64 : (addPrefix pfx "strokeDash" == addPrefix pfx "strokeCap") = false :=
      pk_beq_false pfx "strokeDash" "strokeCap" (by decide) (by decide)
    have m64 : (addPrefix pfx "strokeCap" == addPrefix pfx "strokeDash") = false :=
      pk_beq_false pfx "strokeCap" "strokeDash" (by decide) (by decide)
    have n65 : (addPrefix pfx "strokeDash" == addPrefix pfx "strokeJoin") = false :=
      pk_beq_false pfx "strokeDash" "strokeJoin" (by decide) (by decide)
    have m65 : (addPrefix pfx "strokeJoin" == addPrefix pfx "strokeDash") = false :=
      pk_beq_false pfx "strokeJoin" "strokeDash" (by decide) (by decide)
    have n67 : (addPrefix pfx "strokeDash" == addPrefix pfx "strokeDashOffset") = false :=
      pk_beq_false pfx "strokeDash" "strokeDashOffset" (by decide) (by decide)
    have m67 : (addPrefix pfx "strokeDashOffset" == addPrefix pfx "strokeDash") = false :=
      pk_beq_false pfx "strokeDashOffset" "strokeDash" (by decide) (by decide)
    have ap : "line" ++ "Dash" = "lineDash" := rfl
    simp [strokeStep, strokeKeys, writeStep, strokeWrites, strokeAliasPairs,
      List.find?, List.contains, List.elem, aliasXform, r, n61, m61, n62, m62, n63, m63, n64, m64, n65, m65, n67, m67, ap]
  by_cases h7 : k = addPrefix pfx "strokeDashOffset"
  · subst h7
    have r : removeFirst (addPrefix pfx "strokeDashOffset") (addPrefix pfx "stroke") = "DashOffset" :=
      removeFirst_addPrefix pfx "strokeDashOffset" "stroke" "DashOffset" (by decide) (by decide)
    have n71 : (addPrefix pfx "strokeDashOffset" == addPrefix pfx "strokeColor") = false :=
      pk_beq_false pfx "strokeDashOffset" "strokeColor" (by decide) (by decide)
    have m71 : (addPrefix pfx "strokeColor" == addPrefix pfx "strokeDashOffset") = false :=
      pk_beq_false pfx "strokeColor" "strokeDashOffset" (by decide) (by decide)
    have n72 : (addPrefix pfx "strokeDashOffset" == addPrefix pfx "strokeWidth") = false :=
      pk_beq_false pfx "strokeDashOffset" "strokeWidth" (by decide) (by decide)
    have m72 : (addPrefix pfx "strokeWidth" == addPrefix pfx "strokeDashOffset") = false :=
      pk_beq_false pfx "strokeWidth" "strokeDashOffset" (by decide) (by decide)
    have n73 : (addPrefix pfx "strokeDashOffset" == addPrefix pfx "strokeMiterLimit") = false :=
      pk_beq_false pfx "strokeDashOffset" "strokeMiterLimit" (by decide) (by decide)
    have m73 : (addPrefix pfx "strokeMiterLimit" == addPrefix pfx "strokeDashOffset") = false :=
      pk_beq_false pfx "strokeMiterLimit" "strokeDashOffset" (by decide) (by decide)
    have n74 : (addPrefix pfx "strokeDashOffset" == addPrefix pfx "strokeCap") = false :=
      pk_beq_false pfx "strokeDashOffset" "strokeCap" (by decide) (by decide)
    have m74 : (addPrefix pfx "strokeCap" == addPrefix pfx "strokeDashOffset") = false :=
      pk_beq_false pfx "strokeCap" "strokeDashOffset" (by decide) (by decide)
    have n75 : (addPrefix pfx "strokeDashOffset" == addPrefix pfx "strokeJoin") = false :=
      pk_beq_false pfx "strokeDashOffset" "strokeJoin" (by decide) (by decide)
    have m75 : (addPrefix pfx "strokeJoin" == addPrefix pfx "strokeDashOffset") = false :=
      pk_beq_false pfx "strokeJoin" "strokeDashOffset" (by decide) (by decide)
    have n76 : (addPrefix pfx "strokeDashOffset" == addPrefix pfx "strokeDash") = false :=
      pk_beq_false pfx "strokeDashOffset" "strokeDash" (by decide) (by decide)
    have m76 : (addPrefix pfx "strokeDash" == addPrefix pfx "strokeDashOffset") = false :=
      pk_beq_false pfx "strokeDash" "strokeDashOffset" (by decide) (by decide)
    have ap : "line" ++ "DashOffset" = "lineDashOffset" := rfl
    simp [strokeStep, strokeKeys, writeStep, strokeWrites, strokeAliasPairs,
      List.find?, List.contains, List.elem, aliasXform, r, n71, m71, n72, m72, n73, m73, n74, m74, n75, m75, n76, m76, ap]
  simp [strokeStep, strokeKeys, writeStep, strokeWrites, strokeAliasPairs,
    List.find?, List.contains, List.elem,
    h1, beq_eq_false_iff_ne.mpr h1, beq_eq_false_iff_ne.mpr (Ne.symm h1), h2, beq_eq_false_iff_ne.mpr h2, beq_eq_false_iff_ne.mpr (Ne.symm h2), h3, beq_eq_false_iff_ne.mpr h3, beq_eq_false_iff_ne.mpr (Ne.symm h3), h4, beq_eq_false_iff_ne.mpr h4, beq_eq_false_iff_ne.mpr (Ne.symm h4), h5, beq_eq_false_iff_ne.mpr h5, beq_eq_false_iff_ne.mpr (Ne.symm h5), h6, beq_eq_false_iff_ne.mpr h6, beq_eq_false_iff_ne.mpr (Ne.symm h6), h7, beq_eq_false_iff_ne.mpr h7, beq_eq_false_iff_ne.mpr (Ne.symm h7)]

theorem fillOptions_eq_foldWrite (vlStyle : Obj) (pfx : String) :
    fillOptions vlStyle pfx
      = vlStyle.foldl (fun acc p => writeStep (fillWrites pfx) acc p.2 p.1) [] := by
  unfold fillOptions reduce
  exact List.foldl_ext _ _ [] (fun acc p _ => fillStep_eq_writeStep pfx acc p.2 p.1)

theorem strokeOptions_eq_foldWrite (vlStyle : Obj) (pfx : String) :
    strokeOptions vlStyle pfx
      = vlStyle.foldl (fun acc p => writeStep (strokeWrites pfx) acc p.2 p.1) [] := by
  unfold strokeOptions reduce
  exact List.foldl_ext _ _ [] (fun acc p _ => strokeStep_eq_writeStep pfx acc p.2 p.1)

/-- A fold through a write table leaves the accumulator unchanged when no
entry key occurs in the table. -/
theorem foldWrite_id (writes : List (String × String)) (v : Obj) (init : Obj)
    (h : ∀ p ∈ v, writes.find? (fun w => w.1 == p.1) = none) :
    v.foldl (fun acc p => writeStep writes acc p.2 p.1) init = init := by
  induction v generalizing init with
  | nil => rfl
  | cons p ps ih =>
    rw [List.foldl_cons]
    have hstep : writeStep writes init p.2 p.1 = init := by
      unfold writeStep
      rw [h p (List.mem_cons_self p ps)]
    rw [hstep]
    exact ih init (fun q hq => h q (List.mem_cons_of_mem p hq))

/-- The destination key `D` of a table row `(K, D)` receives exactly the
transformed value of the record's `K` entry; absent a `K` entry, the
accumulator's `D` entry is untouched.  Requires the row to be the only one
with source `K` and the only one with destination `D`. -/
theorem foldWrite_getProp (writes : List (String × String)) (K D : String)
    (hKD : (K, D) ∈ writes)
    (hsrc : ∀ w ∈ writes, w.1 = K → w = (K, D))
    (hdst : ∀ w ∈ writes, w.2 = D → w.1 = K)
    (v : Obj) (hnd : NodupKeys v) :
    ∀ init : Obj,
      getProp (v.foldl (fun acc p => writeStep writes acc p.2 p.1) init) D
        = if hasProp v K then aliasXform D (getProp v K) else getProp init D := by
  induction v with
  | nil => intro init; simp [hasProp]
  | cons p ps ih =>
    intro init
    have hnd2 := hnd
    rw [NodupKeys, List.map_cons, List.nodup_cons] at hnd2
    obtain ⟨hmem, hnd'⟩ := hnd2
    rw [List.foldl_cons]
    by_cases hk : p.1 = K
    · have hstep : writeStep writes init p.2 p.1 = setProp init D (aliasXform D p.2) := by
        unfold writeStep
        cases hf : writes.find? (fun w => w.1 == p.1) with
        | none =>
          exfalso
          have hn := List.find?_eq_none.mp hf (K, D) hKD
          simp [hk] at hn
        | some w =>
          have hw1 : w.1 = p.1 := by
            have hp := List.find?_some hf
            simpa using hp
          have hwKD : w = (K, D) :=
            hsrc w (List.mem_of_find?_eq_some hf) (by rw [hw1, hk])
          rw [hwKD]
      rw [hstep]
      have hpsK : hasProp ps K = false := by
        rw [hasProp_false_iff]
        intro q hq hq1
        exact hmem (hk ▸ hq1 ▸ List.mem_map_of_mem Prod.fst hq)
      rw [ih hnd' (setProp init D (aliasXform D p.2))]
      rw [hpsK]
      have hh : hasProp (p :: ps) K = true := by simp [hasProp, hk]
      rw [hh]
      have hg : getProp (p :: ps) K = p.2 := by simp [getProp, hk]
      rw [hg]
      simp [getProp_setProp]
    · have hhas : hasProp (p :: ps) K = hasProp ps K := by
        simp [hasProp, beq_eq_false_iff_ne.mpr hk]
      have hget : getProp (p :: ps) K = getProp ps K := by
        simp [getProp, beq_eq_false_iff_ne.mpr hk]
      rw [hhas, hget]
      cases hf : writes.find? (fun w => w.1 == p.1) with
      | none =>
        have hstep : writeStep writes init p.2 p.1 = init := by
          unfold writeStep; rw [hf]
        rw [hstep, ih hnd' init]
      | some w =>
        have hw1 : w.1 = p.1 := by
          have hp := List.find?_some hf
          simpa using hp
        have hDne : w.2 ≠ D := fun hD => hk (hw1 ▸ hdst w (List.mem_of_find?_eq_some hf) hD)
        have hstep : writeStep writes init p.2 p.1 = setProp init w.2 (aliasXform w.2 p.2) := by
          unfold writeStep; rw [hf]
        rw [hstep, ih hnd' (setProp init w.2 (aliasXform w.2 p.2))]
        rw [getProp_setProp]
        simp [beq_eq_false_iff_ne.mpr (Ne.symm hDne)]

/-- The destination key `D` is present in the fold's output exactly when
the record has a `K` entry or the accumulator already had `D`. -/
theorem foldWrite_hasProp (writes : List (String × String)) (K D : String)
    (hKD : (K, D) ∈ writes)
    (hsrc : ∀ w ∈ writes, w.1 = K → w = (K, D))
    (hdst : ∀ w ∈ writes, w.2 = D → w.1 = K)
    (v : Obj) :
    ∀ init : Obj,
      hasProp (v.foldl (fun acc p => writeStep writes acc p.2 p.1) init) D
        = (hasProp v K || hasProp init D) := by
  induction v with
  | nil => intro init; simp [hasProp]
  | cons p ps ih =>
    intro init
    rw [List.foldl_cons]
    by_cases hk : p.1 = K
    · have hstep : writeStep writes init p.2 p.1 = setProp init D (aliasXform D p.2) := by
        unfold writeStep
        cases hf : writes.find? (fun w => w.1 == p.1) with
        | none =>
          exfalso
          have hn := List.find?_eq_none.mp hf (K, D) hKD
          simp [hk] at hn
        | some w =>
          have hw1 : w.1 = p.1 := by
            have hp := List.find?_some hf
            simpa using hp
          have hwKD : w = (K, D) :=
            hsrc w (List.mem_of_find?_eq_some hf) (by rw [hw1, hk])
          rw [hwKD]
      rw [hstep, ih (setProp init D (aliasXform D p.2))]
      rw [hasProp_setProp]
      simp [hasProp, hk]
    · have hstep2 : hasProp (p :: ps) K = hasProp ps K := by
        simp [hasProp, beq_eq_false_iff_ne.mpr hk]
      rw [hstep2]
      cases hf : writes.find? (fun w => w.1 == p.1) with
      | none =>
        have hstep : writeStep writes init p.2 p.1 = init := by
          unfold writeStep; rw [hf]
        rw [hstep, ih init]
      | some w =>
        have hw1 : w.1 = p.1 := by
          have hp := List.find?_some hf
          simpa using hp
        have hDne : w.2 ≠ D := fun hD => hk (hw1 ▸ hdst w (List.mem_of_find?_eq_some hf) hD)
        have hstep : writeStep writes init p.2 p.1 = setProp init w.2 (aliasXform w.2 p.2) := by
          unfold writeStep; rw [hf]
        rw [hstep, ih (setProp init w.2 (aliasXform w.2 p.2))]
        rw [hasProp_setProp]
        simp [beq_eq_false_iff_ne.mpr (Ne.symm hDne)]

/-- Every key of the fold's output was already in the accumulator or is a
destination key of the write table. -/
theorem foldWrite_keys (writes : List (String × String)) (v : Obj) :
    ∀ (init : Obj) (k' : String),
      hasProp (v.foldl (fun acc p => writeStep writes acc p.2 p.1) init) k' = true →
      hasProp init k' = true ∨ k' ∈ writes.map Prod.snd := by
  induction v with
  | nil => intro init k' h; exact Or.inl h
  | cons p ps ih =>
    intro init k' h
    rw [List.foldl_cons] at h
    cases hf : writes.find? (fun w => w.1 == p.1) with
    | none =>
      have hstep : writeStep writes init p.2 p.1 = init := by
        unfold writeStep; rw [hf]
      rw [hstep] at h
      exact ih init k' h
    | some w =>
      have hstep : writeStep writes init p.2 p.1 = setProp init w.2 (aliasXform w.2 p.2) := by
        unfold writeStep; rw [hf]
      rw [hstep] at h
      rcases ih (setProp init w.2 (aliasXform w.2 p.2)) k' h with hin | hmem
      · rw [hasProp_setProp] at hin
        rcases Bool.or_eq_true_iff.mp hin with hb | hb
        · exact Or.inr (beq_iff_eq.mp hb ▸
            List.mem_map_of_mem Prod.snd (List.mem_of_find?_eq_some hf))
        · exact Or.inl hb
      · exact Or.inr hmem

/-! ### Helper lemmas for the claim theorems -/

/-- Is the value a JavaScript string? -/
def isString : Value → Bool
  | .str _ => true
  | _ => false

theorem eqNullJS_of_truthy {x : Value} (h : truthy x = true) : eqNullJS x = false := by
  cases x <;> simp_all [truthy, eqNullJS]

theorem orJS_of_truthy {x : Value} (y : Value) (h : truthy x = true) : orJS x y = x := by
  simp [orJS, h]

theorem orJS_of_not_truthy {x : Value} (y : Value) (h : truthy x = false) : orJS x y = y := by
  simp [orJS, h]

theorem createFillStyle_some {v : Obj} {pfx : String} {f : Value}
    (h : createFillStyle v pfx = some f) : ∃ fs, f = .fillS fs := by
  unfold createFillStyle at h
  by_cases hc : isFillInst (getProp v (addPrefix pfx "fill")) = true
  · rw [if_pos hc] at h
    cases hv : getProp v (addPrefix pfx "fill") <;> rw [hv] at hc h <;>
      simp [isFillInst] at hc <;> simp at h
    exact ⟨_, h.symm⟩
  · rw [if_neg hc] at h
    by_cases he : isEmpty (.obj (fillOptions v pfx)) = true
    · simp [he] at h
    · have he' : isEmpty (.obj (fillOptions v pfx)) = false := by simpa using he
      simp [he'] at h
      exact ⟨_, h.symm⟩

theorem createStrokeStyle_some {v : Obj} {pfx : String} {f : Value}
    (h : createStrokeStyle v pfx = some f) : ∃ fs, f = .strokeS fs := by
  unfold createStrokeStyle at h
  by_cases hc : isStrokeInst (getProp v (addPrefix pfx "stroke")) = true
  · rw [if_pos hc] at h
    cases hv : getProp v (addPrefix pfx "stroke") <;> rw [hv] at hc h <;>
      simp [isStrokeInst] at hc <;> simp at h
    exact ⟨_, h.symm⟩
  · rw [if_neg hc] at h
    by_cases he : isEmpty (.obj (strokeOptions v pfx)) = true
    · simp [he] at h
    · have he' : isEmpty (.obj (strokeOptions v pfx)) = false := by simpa using he
      simp [he'] at h
      exact ⟨_, h.symm⟩

theorem orJS_fromOpt_fill {v : Obj} {pfx : String} {f : Value} (y : Value)
    (h : createFillStyle v pfx = some f) : orJS (fromOpt (createFillStyle v pfx)) y = f := by
  obtain ⟨fs, rfl⟩ := createFillStyle_some h
  rw [h]
  exact orJS_of_truthy y rfl

theorem orJS_fromOpt_stroke {v : Obj} {pfx : String} {f : Value} (y : Value)
    (h : createStrokeStyle v pfx = some f) : orJS (fromOpt (createStrokeStyle v pfx)) y = f := by
  obtain ⟨fs, rfl⟩ := createStrokeStyle_some h
  rw [h]
  exact orJS_of_truthy y rfl

theorem orJS_fromOpt_none {o : Option Value} (y : Value) (h : o = none) :
    orJS (fromOpt o) y = y := by
  simp [h, fromOpt, orJS, truthy]

/-- Each row of the stroke write table is the unique row with its source
key and the unique row with its destination key. -/
theorem strokeWrites_uniq (pfx : String) :
    ∀ w ∈ strokeAliasPairs,
      ((addPrefix pfx w.1, w.2) ∈ strokeWrites pfx) ∧
      (∀ u ∈ strokeWrites pfx, u.1 = addPrefix pfx w.1 → u = (addPrefix pfx w.1, w.2)) ∧
      (∀ u ∈ strokeWrites pfx, u.2 = w.2 → u.1 = addPrefix pfx w.1) := by
  intro w hw
  simp only [strokeAliasPairs, List.mem_cons, List.not_mem_nil, or_false] at hw
  rcases hw with rfl | rfl | rfl | rfl | rfl | rfl | rfl
  · refine ⟨by simp [strokeWrites, strokeAliasPairs], ?_, ?_⟩
    · intro u hu h1
      simp only [strokeWrites, strokeAliasPairs, List.map_cons, List.map_nil,
        List.mem_cons, List.not_mem_nil, or_false] at hu
      rcases hu with rfl | rfl | rfl | rfl | rfl | rfl | rfl
      · rfl
      · exact absurd h1 (addPrefix_ne pfx "strokeWidth" "strokeColor" (by decide) (by decide))
      · exact absurd h1 (addPrefix_ne pfx "strokeMiterLimit" "strokeColor" (by decide) (by decide))
      · exact absurd h1 (addPrefix_ne pfx "strokeCap" "strokeColor" (by decide) (by decide))
      · exact absurd h1 (addPrefix_ne pfx "strokeJoin" "strokeColor" (by decide) (by decide))
      · exact absurd h1 (addPrefix_ne pfx "strokeDash" "strokeColor" (by decide) (by decide))
      · exact absurd h1 (addPrefix_ne pfx "strokeDashOffset" "strokeColor" (by decide) (by decide))
    · intro u hu h2
      simp only [strokeWrites, strokeAliasPairs, List.map_cons, List.map_nil,
        List.mem_cons, List.not_mem_nil, or_false] at hu
      rcases hu with rfl | rfl | rfl | rfl | rfl | rfl | rfl
      · rfl
      · simp at h2
      · simp at h2
      · simp at h2
      · simp at h2
      · simp at h2
      · simp at h2
  · refine ⟨by simp [strokeWrites, strokeAliasPairs], ?_, ?_⟩
    · intro u hu h1
      simp only [strokeWrites, strokeAliasPairs, List.map_cons, List.map_nil,
        List.mem_cons, List.not_mem_nil, or_false] at hu
      rcases hu with rfl | rfl | rfl | rfl | rfl | rfl | rfl
      · exact absurd h1 (addPrefix_ne pfx "strokeColor" "strokeWidth" (by decide) (by decide))
      · rfl
      · exact absurd h1 (addPrefix_ne pfx "strokeMiterLimit" "strokeWidth" (by decide) (by decide))
      · exact absurd h1 (addPrefix_ne pfx "strokeCap" "strokeWidth" (by decide) (by decide))
      · exact absurd h1 (addPrefix_ne pfx "strokeJoin" "strokeWidth" (by decide) (by decide))
      · exact absurd h1 (addPrefix_ne pfx "strokeDash" "strokeWidth" (by decide) (by decide))
      · exact absurd h1 (addPrefix_ne pfx "strokeDashOffset" "strokeWidth" (by decide) (by decide))
    · intro u hu h2
      simp only [strokeWrites, strokeAliasPairs, List.map_cons, List.map_nil,
        List.mem_cons, List.not_mem_nil, or_false] at hu
      rcases hu with rfl | rfl | rfl | rfl | rfl | rfl | rfl
      · simp at h2
      · rfl
      · simp at h2
      · simp at h2
      · simp at h2
      · simp at h2
      · simp at h2
  · refine ⟨by simp [strokeWrites, strokeAliasPairs], ?_, ?_⟩
    · intro u hu h1
      simp only [strokeWrites, strokeAliasPairs, List.map_cons, List.map_nil,
        List.mem_cons, List.not_mem_nil, or_false] at hu
      rcases hu with rfl | rfl | rfl | rfl | rfl | rfl | rfl
      · exact absurd h1 (addPrefix_ne pfx "strokeColor" "strokeMiterLimit" (by decide) (by decide))
      · exact absurd h1 (addPrefix_ne pfx "strokeWidth" "strokeMiterLimit" (by decide) (by decide))
      · rfl
      · exact absurd h1 (addPrefix_ne pfx "strokeCap" "strokeMiterLimit" (by decide) (by decide))
      · exact absurd h1 (addPrefix_ne pfx "strokeJoin" "strokeMiterLimit" (by decide) (by decide))
      · exact absurd h1 (addPrefix_ne pfx "strokeDash" "strokeMiterLimit" (by decide) (by decide))
      · exact absurd h1 (addPrefix_ne pfx "strokeDashOffset" "strokeMiterLimit" (by decide) (by decide))
    · intro u hu h2
      simp only [strokeWrites, strokeAliasPairs, List.map_cons, List.map_nil,
        List.mem_cons, List.not_mem_nil, or_false] at hu
      rcases hu with rfl | rfl | rfl | rfl | rfl | rfl | rfl
      · simp at h2
      · simp at h2
      · rfl
      · simp at h2
      · simp at h2
      · simp at h2
      · simp at h2
  · refine ⟨by simp [strokeWrites, strokeAliasPairs], ?_, ?_⟩
    · intro u hu h1
      simp only [strokeWrites, strokeAliasPairs, List.map_cons, List.map_nil,
        List.mem_cons, List.not_mem_nil, or_false] at hu
      rcases hu with rfl | rfl | rfl | rfl | rfl | rfl | rfl
      · exact absurd h1 (addPrefix_ne pfx "strokeColor" "strokeCap" (by decide) (by decide))
      · exact absurd h1 (addPrefix_ne pfx "strokeWidth" "strokeCap" (by decide) (by decide))
      · exact absurd h1 (addPrefix_ne pfx "strokeMiterLimit" "strokeCap" (by decide) (by decide))
      · rfl
      · exact absurd h1 (addPrefix_ne pfx "strokeJoin" "strokeCap" (by decide) (by decide))
      · exact absurd h1 (addPrefix_ne pfx "strokeDash" "strokeCap" (by decide) (by decide))
      · exact absurd h1 (addPrefix_ne pfx "strokeDashOffset" "strokeCap" (by decide) (by decide))
    · intro u hu h2
      simp only [strokeWrites, strokeAliasPairs, List.map_cons, List.map_nil,
        List.mem_cons, List.not_mem_nil, or_false] at hu
      rcases hu with rfl | rfl | rfl | rfl | rfl | rfl | rfl
      · simp at h2
      · simp at h2
      · simp at h2
      · rfl
      · simp at h2
      · simp at h2
      · simp at h2
  · refine ⟨by simp [strokeWrites, strokeAliasPairs], ?_, ?_⟩
    · intro u hu h1
      simp only [strokeWrites, strokeAliasPairs, List.map_cons, List.map_nil,
        List.mem_cons, List.not_mem_nil, or_false] at hu
      rcases hu with rfl | rfl | rfl | rfl | rfl | rfl | rfl
      · exact absurd h1 (addPrefix_ne pfx "strokeColor" "strokeJoin" (by decide) (by decide))
      · exact absurd h1 (addPrefix_ne pfx "strokeWidth" "strokeJoin" (by decide) (by decide))
      · exact absurd h1 (addPrefix_ne pfx "strokeMiterLimit" "strokeJoin" (by decide) (by decide))
      · exact absurd h1 (addPrefix_ne pfx "strokeCap" "strokeJoin" (by decide) (by decide))
      · rfl
      · exact absurd h1 (addPrefix_ne pfx "strokeDash" "strokeJoin" (by decide) (by decide))
      · exact absurd h1 (addPrefix_ne pfx "strokeDashOffset" "strokeJoin" (by decide) (by decide))
    · intro u hu h2
      simp only [strokeWrites, strokeAliasPairs, List.map_cons, List.map_nil,
        List.mem_cons, List.not_mem_nil, or_false] at hu
      rcases hu with rfl | rfl | rfl | rfl | rfl | rfl | rfl
      · simp at h2
      · simp at h2
      · simp at h2
      · simp at h2
      · rfl
      · simp at h2
      · simp at h2
  · refine ⟨by simp [strokeWrites, strokeAliasPairs], ?_, ?_⟩
    · intro u hu h1
      simp only [strokeWrites, strokeAliasPairs, List.map_cons, List.map_nil,
        List.mem_cons, List.not_mem_nil, or_false] at hu
      rcases hu with rfl | rfl | rfl | rfl | rfl | rfl | rfl
      · exact absurd h1 (addPrefix_ne pfx "strokeColor" "strokeDash" (by decide) (by decide))
      · exact absurd h1 (addPrefix_ne pfx "strokeWidth" "strokeDash" (by decide) (by decide))
      · exact absurd h1 (addPrefix_ne pfx "strokeMiterLimit" "strokeDash" (by decide) (by decide))
      · exact absurd h1 (addPrefix_ne pfx "strokeCap" "strokeDash" (by decide) (by decide))
      · exact absurd h1 (addPrefix_ne pfx "strokeJoin" "strokeDash" (by decide) (by decide))
      · rfl
      · exact absurd h1 (addPrefix_ne pfx "strokeDashOffset" "strokeDash" (by decide) (by decide))
    · intro u hu h2
      simp only [strokeWrites, strokeAliasPairs, List.map_cons, List.map_nil,
        List.mem_cons, List.not_mem_nil, or_false] at hu
      rcases hu with rfl | rfl | rfl | rfl | rfl | rfl | rfl
      · simp at h2
      · simp at h2
      · simp at h2
      · simp at h2
      · simp at h2
      · rfl
      · simp at h2
  · refine ⟨by simp [strokeWrites, strokeAliasPairs], ?_, ?_⟩
    · intro u hu h1
      simp only [strokeWrites, strokeAliasPairs, List.map_cons, List.map_nil,
        List.mem_cons, List.not_mem_nil, or_false] at hu
      rcases hu with rfl | rfl | rfl | rfl | rfl | rfl | rfl
      · exact absurd h1 (addPrefix_ne pfx "strokeColor" "strokeDashOffset" (by decide) (by decide))
      · exact absurd h1 (addPrefix_ne pfx "strokeWidth" "strokeDashOffset" (by decide) (by decide))
      · exact absurd h1 (addPrefix_ne pfx "strokeMiterLimit" "strokeDashOffset" (by decide) (by decide))
      · exact absurd h1 (addPrefix_ne pfx "strokeCap" "strokeDashOffset" (by decide) (by decide))
      · exact absurd h1 (addPrefix_ne pfx "strokeJoin" "strokeDashOffset" (by decide) (by decide))
      · exact absurd h1 (addPrefix_ne pfx "strokeDash" "strokeDashOffset" (by decide) (by decide))
      · rfl
    · intro u hu h2
      simp only [strokeWrites, strokeAliasPairs, List.map_cons, List.map_nil,
        List.mem_cons, List.not_mem_nil, or_false] at hu
      rcases hu with rfl | rfl | rfl | rfl | rfl | rfl | rfl
      · simp at h2
      · simp at h2
      · simp at h2
      · simp at h2
      · simp at h2
      · simp at h2
      · rfl

/-! ### Claim theorems -/

/-- C1 (code evaluation): on the record `{foo: 1}`, which holds no
relevant style field, `createStyle` does not return `undefined`: it
returns a `Style` wrapping all-undefined sub-styles, because the
seven-key `olStyle` literal always has seven own keys (keys with
`undefined` values included) and so is never `isEmpty`.  Only the
genuinely empty record yields `undefined`. -/
theorem C1_createStyle_not_elided :
    createStyle [] = none ∧
    createStyle [("foo", Value.num 1)]
      = some (.styleS [("text", .undefined), ("fill", .undefined), ("stroke", .undefined),
          ("image", .undefined), ("geometry", .undefined), ("zIndex", .undefined), ("renderer", .undefined)]) :=
  ⟨rfl, rfl⟩

/-- C2 (amended): the sub-style compilers have no side effects on the
input record at all: nothing in their bodies writes to it, in particular
the compiled sub-style is not cached back onto it (the `instanceof`
checks read a precompiled sub-style but nothing stores one). -/
theorem C2_substyle_compilers_pure (v : Obj) (pfx : String) :
    (createFillStyleM v pfx).2 = v ∧ (createStrokeStyleM v pfx).2 = v ∧
    (createImageStyleM v).2 = v ∧ (createTextStyleM v).2 = v :=
  ⟨rfl, rfl, rfl, rfl⟩

/-- C2 (counterexample): compiling the fill of `{fillColor: '#aabbcc'}`
produces a `Fill`, but after the call the record still has no `fill`
property at all — the compiled sub-style is not cached back onto the
record, contrary to the claimed memoization write. -/
theorem C2_no_memoization_counterexample :
    (createFillStyleM [("fillColor", Value.str "#aabbcc")] "").1
        = some (.fillS [("color",
            Value.arr [Value.num 170, Value.num 187, Value.num 204, Value.num 1])]) ∧
    hasProp ((createFillStyleM [("fillColor", Value.str "#aabbcc")] "").2) "fill" = false ∧
    getProp ((createFillStyleM [("fillColor", Value.str "#aabbcc")] "").2) "fill" = Value.undefined :=
  ⟨rfl, rfl, rfl⟩

/-- C3: an already-compiled sub-style stored on the record is returned
as-is: a `Fill` instance under the prefixed `fill` key, a `Stroke`
instance under the prefixed `stroke` key, an `ImageStyle` instance
(`Icon`, `RegularShape` or `Circle`) under `image`, and a `Text` instance
under `text` are each returned unchanged, with no new object compiled. -/
theorem C3_reuse_compiled_substyles (v : Obj) (pfx : String) (fs : List (String × Value)) :
    (getProp v (addPrefix pfx "fill") = .fillS fs → createFillStyle v pfx = some (.fillS fs)) ∧
    (getProp v (addPrefix pfx "stroke") = .strokeS fs → createStrokeStyle v pfx = some (.strokeS fs)) ∧
    (getProp v "image" = .iconS fs → createImageStyle v = some (.iconS fs)) ∧
    (getProp v "image" = .regShapeS fs → createImageStyle v = some (.regShapeS fs)) ∧
    (getProp v "image" = .circleS fs → createImageStyle v = some (.circleS fs)) ∧
    (getProp v "text" = .textS fs → createTextStyle v = some (.textS fs)) := by
  refine ⟨fun h => ?_, fun h => ?_, fun h => ?_, fun h => ?_, fun h => ?_, fun h => ?_⟩
  · simp [createFillStyle, h, isFillInst]
  · simp [createStrokeStyle, h, isStrokeInst]
  · simp [createImageStyle, h, isEmpty, isImageInst]
  · simp [createImageStyle, h, isEmpty, isImageInst]
  · simp [createImageStyle, h, isEmpty, isImageInst]
  · simp [createTextStyle, h, eqNullJS, isTextInst]

theorem C3_reuse_compiled_substyles_witness :
    createFillStyle [("fill", Value.fillS [("color", Value.num 1)])] ""
        = some (.fillS [("color", Value.num 1)]) ∧
    createStrokeStyle [("stroke", Value.strokeS [])] "" = some (.strokeS []) ∧
    createImageStyle [("image", Value.circleS [("radius", Value.num 2)])]
        = some (.circleS [("radius", Value.num 2)]) ∧
    createTextStyle [("text", Value.textS [("text", Value.str "a")])]
        = some (.textS [("text", Value.str "a")]) :=
  ⟨(C3_reuse_compiled_substyles [("fill", Value.fillS [("color", Value.num 1)])] "" _).1 rfl,
   (C3_reuse_compiled_substyles [("stroke", Value.strokeS [])] "" _).2.1 rfl,
   (C3_reuse_compiled_substyles [("image", Value.circleS [("radius", Value.num 2)])] "" _).2.2.2.2.1 rfl,
   (C3_reuse_compiled_substyles [("text", Value.textS [("text", Value.str "a")])] "" _).2.2.2.2.2 rfl⟩

/-- C4: the identity accessors `getStyleId` and `setStyleId` throw
`Error('Illegal style argument')` exactly when the style object lacks an
`id` own property; with the property present, `getStyleId` returns
`style.id`, and `setStyleId` stores the new id and returns the updated
style object; on the error path the style object is left unchanged. -/
theorem C4_style_id_accessors (style : Obj) (styleId : Value) :
    (getStyleId style = .error "Illegal style argument" ↔ hasProp style "id" = false) ∧
    ((setStyleId style styleId).1 = .error "Illegal style argument" ↔ hasProp style "id" = false) ∧
    (hasProp style "id" = true →
      getStyleId style = .ok (getProp style "id") ∧
      (setStyleId style styleId).1 = .ok (setProp style "id" styleId) ∧
      (setStyleId style styleId).2 = setProp style "id" styleId ∧
      getProp (setStyleId style styleId).2 "id" = styleId) ∧
    (hasProp style "id" = false → (setStyleId style styleId).2 = style) := by
  by_cases h : hasProp style "id" = true
  · simp [getStyleId, setStyleId, h, getProp_setProp]
  · have hf : hasProp style "id" = false := by simpa using h
    simp [getStyleId, setStyleId, hf]

theorem C4_style_id_accessors_witness :
    getStyleId [("id", Value.num 1)] = .ok (getProp [("id", Value.num 1)] "id") ∧
    (setStyleId [("x", Value.null)] (Value.str "s")).2 = [("x", Value.null)] :=
  ⟨((C4_style_id_accessors [("id", Value.num 1)] (Value.str "s")).2.2.1 (by decide)).1,
   (C4_style_id_accessors [("x", Value.null)] (Value.str "s")).2.2.2 (by decide)⟩

/-- C10: `initializeStyle` returns the style object itself; a null or
undefined id is replaced — with `defaultStyleId` when that is truthy,
otherwise with the freshly generated uuid — and is non-null afterwards;
a non-null id is left unchanged; a style without an `id` own property
makes the call throw. -/
theorem C10_initializeStyle_spec (style : Obj) (defaultStyleId : Value) (genId : String) :
    (hasProp style "id" = false →
      initializeStyle style defaultStyleId genId = .error "Illegal style argument") ∧
    (hasProp style "id" = true →
      (eqNullJS (getProp style "id") = true →
        initializeStyle style defaultStyleId genId
            = .ok (setProp style "id" (orJS defaultStyleId (.str genId))) ∧
        eqNullJS (getProp (setProp style "id" (orJS defaultStyleId (.str genId))) "id") = false ∧
        (truthy defaultStyleId = true →
          getProp (setProp style "id" (orJS defaultStyleId (.str genId))) "id" = defaultStyleId) ∧
        (truthy defaultStyleId = false →
          getProp (setProp style "id" (orJS defaultStyleId (.str genId))) "id" = .str genId)) ∧
      (eqNullJS (getProp style "id") = false →
        initializeStyle style defaultStyleId genId = .ok style)) := by
  by_cases h : hasProp style "id" = true
  · constructor
    · intro hf; rw [hf] at h; exact absurd h (by simp)
    · intro _
      constructor
      · intro hn
        refine ⟨?_, ?_, ?_, ?_⟩
        · simp [initializeStyle, getStyleId, setStyleId, h, hn]
        · rw [getProp_setProp]
          simp only [beq_self_eq_true, if_true]
          by_cases ht : truthy defaultStyleId = true
          · rw [orJS_of_truthy _ ht]; exact eqNullJS_of_truthy ht
          · rw [orJS_of_not_truthy _ (by simpa using ht)]; rfl
        · intro ht; rw [getProp_setProp]; simp [orJS_of_truthy _ ht]
        · intro ht; rw [getProp_setProp]; simp [orJS_of_not_truthy _ ht]
      · intro hn; simp [initializeStyle, getStyleId, setStyleId, h, hn]
  · have hf : hasProp style "id" = false := by simpa using h
    refine ⟨fun _ => ?_, fun ht => absurd ht (by simp [hf])⟩
    simp [initializeStyle, getStyleId, hf]

theorem C10_initializeStyle_spec_witness :
    initializeStyle [("id", Value.null)] Value.undefined "gen"
        = .ok (setProp [("id", Value.null)] "id" (orJS Value.undefined (.str "gen"))) ∧
    initializeStyle [("id", Value.num 7)] Value.undefined "gen" = .ok [("id", Value.num 7)] ∧
    initializeStyle [("x", Value.num 7)] Value.undefined "gen" = .error "Illegal style argument" :=
  ⟨(((C10_initializeStyle_spec [("id", Value.null)] Value.undefined "gen").2 (by decide)).1 (by decide)).1,
   ((C10_initializeStyle_spec [("id", Value.num 7)] Value.undefined "gen").2 (by decide)).2 (by decide),
   (C10_initializeStyle_spec [("x", Value.num 7)] Value.undefined "gen").1 (by decide)⟩

/-- C6: with no prefixed `fillColor` key and no precompiled fill on the
record, `createFillStyle` returns `undefined`; with none of the seven
prefixed stroke keys and no precompiled stroke, `createStrokeStyle`
returns `undefined` — an empty options object is never passed to a
constructor. -/
theorem C6_empty_elision (v : Obj) (pfx : String) :
    (hasProp v (addPrefix pfx "fillColor") = false →
      isFillInst (getProp v (addPrefix pfx "fill")) = false →
      createFillStyle v pfx = none) ∧
    ((∀ s ∈ ["strokeColor", "strokeWidth", "strokeMiterLimit", "strokeCap",
        "strokeJoin", "strokeDash", "strokeDashOffset"],
        hasProp v (addPrefix pfx s) = false) →
      isStrokeInst (getProp v (addPrefix pfx "stroke")) = false →
      createStrokeStyle v pfx = none) := by
  constructor
  · intro hk hc
    have hopts : fillOptions v pfx = [] := by
      rw [fillOptions_eq_foldWrite]
      apply foldWrite_id
      intro p hp
      have hne : p.1 ≠ addPrefix pfx "fillColor" := (hasProp_false_iff v _).mp hk p hp
      simp [fillWrites, List.find?, beq_eq_false_iff_ne.mpr (Ne.symm hne)]
    simp [createFillStyle, hc, hopts, isEmpty]
  · intro hks hc
    have hne : ∀ s ∈ ["strokeColor", "strokeWidth", "strokeMiterLimit", "strokeCap",
        "strokeJoin", "strokeDash", "strokeDashOffset"],
        ∀ p ∈ v, p.1 ≠ addPrefix pfx s :=
      fun s hs => (hasProp_false_iff v _).mp (hks s hs)
    have hopts : strokeOptions v pfx = [] := by
      rw [strokeOptions_eq_foldWrite]
      apply foldWrite_id
      intro p hp
      rw [List.find?_eq_none]
      intro w hw
      simp only [strokeWrites, strokeAliasPairs, List.map_cons, List.map_nil,
        List.mem_cons, List.not_mem_nil, or_false] at hw
      rcases hw with rfl | rfl | rfl | rfl | rfl | rfl | rfl
      · simp [beq_eq_false_iff_ne.mpr (Ne.symm (hne "strokeColor" (by simp) p hp))]
      · simp [beq_eq_false_iff_ne.mpr (Ne.symm (hne "strokeWidth" (by simp) p hp))]
      · simp [beq_eq_false_iff_ne.mpr (Ne.symm (hne "strokeMiterLimit" (by simp) p hp))]
      · simp [beq_eq_false_iff_ne.mpr (Ne.symm (hne "strokeCap" (by simp) p hp))]
      · simp [beq_eq_false_iff_ne.mpr (Ne.symm (hne "strokeJoin" (by simp) p hp))]
      · simp [beq_eq_false_iff_ne.mpr (Ne.symm (hne "strokeDash" (by simp) p hp))]
      · simp [beq_eq_false_iff_ne.mpr (Ne.symm (hne "strokeDashOffset" (by simp) p hp))]
    simp [createStrokeStyle, hc, hopts, isEmpty]

theorem C6_empty_elision_witness :
    createFillStyle [("foo", Value.num 1)] "" = none ∧
    createStrokeStyle [("foo", Value.num 1)] "" = none :=
  ⟨(C6_empty_elision [("foo", Value.num 1)] "").1 (by decide) (by decide),
   (C6_empty_elision [("foo", Value.num 1)] "").2 (by decide) (by decide)⟩

/-- C7: `normalizeColor` sends every string through `parseColor(·).rgba`
and returns every non-string value unchanged, and the fill and stroke
compilers apply exactly this normalization to the value stored under the
`color` key of the options record the `Fill`/`Stroke` is then constructed
from. -/
theorem C7_color_normalization (v : Obj) (pfx : String) (s : String) (val : Value) :
    normalizeColor (.str s) = parseColorRgba s ∧
    (isString val = false → normalizeColor val = val) ∧
    (NodupKeys v → hasProp v (addPrefix pfx "fillColor") = true →
      isFillInst (getProp v (addPrefix pfx "fill")) = false →
      createFillStyle v pfx = some (.fillS (fillOptions v pfx)) ∧
      getProp (fillOptions v pfx) "color"
        = normalizeColor (getProp v (addPrefix pfx "fillColor"))) ∧
    (NodupKeys v → hasProp v (addPrefix pfx "strokeColor") = true →
      isStrokeInst (getProp v (addPrefix pfx "stroke")) = false →
      createStrokeStyle v pfx = some (.strokeS (strokeOptions v pfx)) ∧
      getProp (strokeOptions v pfx) "color"
        = normalizeColor (getProp v (addPrefix pfx "strokeColor"))) := by
  refine ⟨rfl, ?_, ?_, ?_⟩
  · intro h; cases val <;> simp_all [isString, normalizeColor]
  · intro hnd hk hc
    have hfw₁ : (addPrefix pfx "fillColor", "color") ∈ fillWrites pfx := by simp [fillWrites]
    have hfw₂ : ∀ w ∈ fillWrites pfx, w.1 = addPrefix pfx "fillColor" →
        w = (addPrefix pfx "fillColor", "color") := by
      intro w hw _; simpa [fillWrites] using hw
    have hfw₃ : ∀ w ∈ fillWrites pfx, w.2 = "color" → w.1 = addPrefix pfx "fillColor" := by
      intro w hw _
      have : w = (addPrefix pfx "fillColor", "color") := by simpa [fillWrites] using hw
      rw [this]
    have hcol : getProp (fillOptions v pfx) "color"
        = normalizeColor (getProp v (addPrefix pfx "fillColor")) := by
      rw [fillOptions_eq_foldWrite,
        foldWrite_getProp (fillWrites pfx) (addPrefix pfx "fillColor") "color" hfw₁ hfw₂ hfw₃ v hnd []]
      simp [hk, aliasXform]
    have hhas : hasProp (fillOptions v pfx) "color" = true := by
      rw [fillOptions_eq_foldWrite,
        foldWrite_hasProp (fillWrites pfx) (addPrefix pfx "fillColor") "color" hfw₁ hfw₂ hfw₃ v []]
      simp [hk]
    refine ⟨?_, hcol⟩
    simp [createFillStyle, hc, isEmpty_obj_false_of_hasProp hhas]
  · intro hnd hk hc
    obtain ⟨h₁, h₂, h₃⟩ := strokeWrites_uniq pfx ("strokeColor", "color") (by simp [strokeAliasPairs])
    have hcol : getProp (strokeOptions v pfx) "color"
        = normalizeColor (getProp v (addPrefix pfx "strokeColor")) := by
      rw [strokeOptions_eq_foldWrite,
        foldWrite_getProp (strokeWrites pfx) (addPrefix pfx "strokeColor") "color" h₁ h₂ h₃ v hnd []]
      simp [hk, aliasXform]
    have hhas : hasProp (strokeOptions v pfx) "color" = true := by
      rw [strokeOptions_eq_foldWrite,
        foldWrite_hasProp (strokeWrites pfx) (addPrefix pfx "strokeColor") "color" h₁ h₂ h₃ v []]
      simp [hk]
    refine ⟨?_, hcol⟩
    simp [createStrokeStyle, hc, isEmpty_obj_false_of_hasProp hhas]

theorem C7_color_normalization_witness :
    createFillStyle [("fillColor", Value.str "#aabbcc")] ""
        = some (.fillS (fillOptions [("fillColor", Value.str "#aabbcc")] "")) ∧
    getProp (fillOptions [("fillColor", Value.str "#aabbcc")] "") "color"
        = normalizeColor (getProp [("fillColor", Value.str "#aabbcc")] "fillColor") := by
  have h := (C7_color_normalization [("fillColor", Value.str "#aabbcc")] "" "" Value.undefined).2.2.1
      (by decide) (by decide) (by decide)
  exact ⟨h.1, h.2⟩

/-- C8: for every record and prefix, the stroke options rename the seven
prefixed flat keys exactly per `strokeAliasPairs`
(`strokeColor->color`, `strokeWidth->width`, `strokeMiterLimit->miterLimit`,
`strokeCap->lineCap`, `strokeJoin->lineJoin`, `strokeDash->lineDash`,
`strokeDashOffset->lineDashOffset`), copying the value unchanged except
for color normalization on `color`; a missing source key leaves its
destination key absent, and no key outside the seven destinations ever
appears in the options. -/
theorem C8_stroke_key_aliasing (v : Obj) (pfx : String) :
    NodupKeys v →
    (∀ w ∈ strokeAliasPairs,
      (hasProp v (addPrefix pfx w.1) = true →
        getProp (strokeOptions v pfx) w.2
          = (if w.2 == "color" then normalizeColor (getProp v (addPrefix pfx w.1))
             else getProp v (addPrefix pfx w.1))) ∧
      (hasProp v (addPrefix pfx w.1) = false →
        hasProp (strokeOptions v pfx) w.2 = false)) ∧
    (∀ k, hasProp (strokeOptions v pfx) k = true →
      k ∈ ["color", "width", "miterLimit", "lineCap", "lineJoin", "lineDash",
           "lineDashOffset"]) := by
  intro hnd
  constructor
  · intro w hw
    obtain ⟨h₁, h₂, h₃⟩ := strokeWrites_uniq pfx w hw
    constructor
    · intro hk
      rw [strokeOptions_eq_foldWrite,
        foldWrite_getProp (strokeWrites pfx) (addPrefix pfx w.1) w.2 h₁ h₂ h₃ v hnd []]
      simp [hk, aliasXform]
    · intro hk
      rw [strokeOptions_eq_foldWrite,
        foldWrite_hasProp (strokeWrites pfx) (addPrefix pfx w.1) w.2 h₁ h₂ h₃ v []]
      simp [hk, hasProp]
  · intro k hk
    rw [strokeOptions_eq_foldWrite] at hk
    rcases foldWrite_keys (strokeWrites pfx) v [] k hk with hin | hmem
    · simp [hasProp] at hin
    · simpa [strokeWrites, strokeAliasPairs] using hmem

theorem C8_stroke_key_aliasing_witness :
    getProp (strokeOptions [("strokeColor", Value.num 3), ("strokeWidth", Value.num 2)] "") "width"
        = Value.num 2 ∧
    hasProp (strokeOptions [("strokeColor", Value.num 3)] "") "lineCap" = false := by
  refine ⟨?_, ?_⟩
  · exact ((C8_stroke_key_aliasing [("strokeColor", Value.num 3), ("strokeWidth", Value.num 2)] ""
      (by decide)).1 ("strokeWidth", "width") (by simp [strokeAliasPairs])).1 (by decide)
  · exact ((C8_stroke_key_aliasing [("strokeColor", Value.num 3)] ""
      (by decide)).1 ("strokeCap", "lineCap") (by simp [strokeAliasPairs])).2 (by decide)

/-- C5: when the text sub-style is compiled, its `fill`/`stroke` options
use the text-prefixed compilation when it yields a style and fall back to
the unprefixed compilation otherwise; the `backgroundFill` and
`backgroundStroke` options come only from the textBackground-prefixed
compilation with no fallback; the image options' `fill`/`stroke` use the
image-prefixed compilation with the same unprefixed fallback. -/
theorem C5_prefix_fallback (v : Obj) :
    (eqNullJS (getProp v "text") = false → isTextInst (getProp v "text") = false →
      createTextStyle v = some (.textS (textOptions v))) ∧
    (∀ f, createFillStyle v "text" = some f → getProp (textOptions v) "fill" = f) ∧
    (createFillStyle v "text" = none →
      getProp (textOptions v) "fill" = fromOpt (createFillStyle v "")) ∧
    (∀ f, createStrokeStyle v "text" = some f → getProp (textOptions v) "stroke" = f) ∧
    (createStrokeStyle v "text" = none →
      getProp (textOptions v) "stroke" = fromOpt (createStrokeStyle v "")) ∧
    getProp (textOptions v) "backgroundFill" = fromOpt (createFillStyle v "textBackground") ∧
    getProp (textOptions v) "backgroundStroke" = fromOpt (createStrokeStyle v "textBackground") ∧
    (∀ f, createFillStyle v "image" = some f → getProp (imageOptions v).2 "fill" = f) ∧
    (createFillStyle v "image" = none →
      getProp (imageOptions v).2 "fill" = fromOpt (createFillStyle v "")) ∧
    (∀ f, createStrokeStyle v "image" = some f → getProp (imageOptions v).2 "stroke" = f) ∧
    (createStrokeStyle v "image" = none →
      getProp (imageOptions v).2 "stroke" = fromOpt (createStrokeStyle v "")) := by
  have htfill : getProp (textOptions v) "fill"
      = orJS (fromOpt (createFillStyle v "text")) (fromOpt (createFillStyle v "")) := by
    simp [textOptions, assignPairs, getProp_setProp]
  have htstroke : getProp (textOptions v) "stroke"
      = orJS (fromOpt (createStrokeStyle v "text")) (fromOpt (createStrokeStyle v "")) := by
    simp [textOptions, assignPairs, getProp_setProp]
  have hifill : getProp (imageOptions v).2 "fill"
      = orJS (fromOpt (createFillStyle v "image")) (fromOpt (createFillStyle v "")) := by
    simp [imageOptions, assignPairs, getProp_setProp]
  have histroke : getProp (imageOptions v).2 "stroke"
      = orJS (fromOpt (createStrokeStyle v "image")) (fromOpt (createStrokeStyle v "")) := by
    simp [imageOptions, assignPairs, getProp_setProp]
  refine ⟨?_, ?_, ?_, ?_, ?_, ?_, ?_, ?_, ?_, ?_, ?_⟩
  · intro h1 h2
    have hfont : hasProp (textOptions v) "font" = true := by
      simp [textOptions, assignPairs, hasProp_setProp]
    simp [createTextStyle, h1, h2, isEmpty_obj_false_of_hasProp hfont]
  · intro f hf; rw [htfill]; exact orJS_fromOpt_fill _ hf
  · intro hf; rw [htfill]; exact orJS_fromOpt_none _ hf
  · intro f hf; rw [htstroke]; exact orJS_fromOpt_stroke _ hf
  · intro hf; rw [htstroke]; exact orJS_fromOpt_none _ hf
  · simp [textOptions, assignPairs, getProp_setProp]
  · simp [textOptions, assignPairs, getProp_setProp]
  · intro f hf; rw [hifill]; exact orJS_fromOpt_fill _ hf
  · intro hf; rw [hifill]; exact orJS_fromOpt_none _ hf
  · intro f hf; rw [histroke]; exact orJS_fromOpt_stroke _ hf
  · intro hf; rw [histroke]; exact orJS_fromOpt_none _ hf

theorem C5_prefix_fallback_witness :
    createTextStyle [("text", Value.str "hi"), ("textFillColor", Value.str "#aabbcc")]
        = some (.textS (textOptions [("text", Value.str "hi"), ("textFillColor", Value.str "#aabbcc")])) ∧
    getProp (textOptions [("text", Value.str "hi"), ("textFillColor", Value.str "#aabbcc")]) "fill"
        = Value.fillS [("color",
            Value.arr [Value.num 170, Value.num 187, Value.num 204, Value.num 1])] := by
  have h := C5_prefix_fallback [("text", Value.str "hi"), ("textFillColor", Value.str "#aabbcc")]
  exact ⟨h.1 (by decide) (by decide), h.2.1 _ rfl⟩

/-- C9: `createImageStyle` returns `undefined` when `imageSrc`, `image`
and `imagePoints` are all empty and `imageRadius` is not numeric;
otherwise, unless `vlStyle.image` is a precompiled `ImageStyle`, it
constructs the style selected by `imageOptions`: an `Icon` when
`imageSrc` or `image` is non-empty, else a `RegularShape` when
`imagePoints` is non-null, else a `Circle` whose options carry
`imageRadius` under `radius`; the merged options always carry
`snapToPixel: true`. -/
theorem C9_image_dispatch (v : Obj) :
    (isEmpty (getProp v "imageSrc") = true → isEmpty (getProp v "image") = true →
      isEmpty (getProp v "imagePoints") = true → isNumeric (getProp v "imageRadius") = false →
      createImageStyle v = none) ∧
    ((isEmpty (getProp v "imageSrc") && isEmpty (getProp v "image")
        && isEmpty (getProp v "imagePoints") && !isNumeric (getProp v "imageRadius")) = false →
      isImageInst (getProp v "image") = false →
      createImageStyle v = some (mkImage (imageOptions v).1 (imageOptions v).2)) ∧
    getProp (imageOptions v).2 "snapToPixel" = Value.bool true ∧
    ((isEmpty (getProp v "imageSrc") = false ∨ isEmpty (getProp v "image") = false) →
      (imageOptions v).1 = ImageCtor.icon) ∧
    (isEmpty (getProp v "imageSrc") = true → isEmpty (getProp v "image") = true →
      eqNullJS (getProp v "imagePoints") = false →
      (imageOptions v).1 = ImageCtor.regularShape) ∧
    (isEmpty (getProp v "imageSrc") = true → isEmpty (getProp v "image") = true →
      eqNullJS (getProp v "imagePoints") = true →
      (imageOptions v).1 = ImageCtor.circle ∧
      getProp (imageOptions v).2 "radius" = getProp v "imageRadius") := by
  refine ⟨?_, ?_, ?_, ?_, ?_, ?_⟩
  · intro h1 h2 h3 h4
    simp [createImageStyle, h1, h2, h3, h4]
  · intro hg hi
    have hsnap : hasProp (imageOptions v).2 "snapToPixel" = true := by
      simp [imageOptions, assignPairs, hasProp_setProp]
    simp [createImageStyle, hg, hi, isEmpty_obj_false_of_hasProp hsnap]
  · simp [imageOptions, assignPairs, getProp_setProp]
  · intro hd
    rcases hd with hd | hd <;> simp [imageOptions, imageStyleBase, hd]
  · intro h1 h2 hp
    simp [imageOptions, imageStyleBase, h1, h2, hp]
  · intro h1 h2 hp
    constructor
    · simp [imageOptions, imageStyleBase, h1, h2, hp]
    · simp [imageOptions, imageStyleBase, h1, h2, hp, assignPairs, getProp_setProp]

theorem C9_image_dispatch_witness :
    createImageStyle [("imageRadius", Value.num 5)]
        = some (mkImage (imageOptions [("imageRadius", Value.num 5)]).1
            (imageOptions [("imageRadius", Value.num 5)]).2) ∧
    (imageOptions [("imageRadius", Value.num 5)]).1 = ImageCtor.circle ∧
    getProp (imageOptions [("imageRadius", Value.num 5)]).2 "radius" = Value.num 5 ∧
    createImageStyle [("imagePoints", Value.arr [Value.num 3])]
        = some (mkImage (imageOptions [("imagePoints", Value.arr [Value.num 3])]).1
            (imageOptions [("imagePoints", Value.arr [Value.num 3])]).2) ∧
    (imageOptions [("imagePoints", Value.arr [Value.num 3])]).1 = ImageCtor.regularShape ∧
    createImageStyle [("foo", Value.num 1)] = none := by
  have h5 := C9_image_dispatch [("imageRadius", Value.num 5)]
  have hp := C9_image_dispatch [("imagePoints", Value.arr [Value.num 3])]
  have hf := C9_image_dispatch [("foo", Value.num 1)]
  exact ⟨h5.2.1 (by decide) (by decide),
    (h5.2.2.2.2.2 (by decide) (by decide) (by decide)).1,
    (h5.2.2.2.2.2 (by decide) (by decide) (by decide)).2,
    hp.2.1 (by decide) (by decide),
    hp.2.2.2.2.1 (by decide) (by decide) (by decide),
    hf.1 (by decide) (by decide) (by decide) (by decide)⟩

end VlStyle
